import Mathlib

/-!
# Fulcio trust roots and SCT verification

A shallow embedding of two Go packages of the cosign command line:

* `cmd/cosign/cli/fulcio/fulcioroots/fulcioroots.go` : `initRoots`, `Get`,
  `GetIntermediates`;
* `cmd/cosign/cli/fulcio/fulcioverifier/ctl/verify.go` : `ContainsSCT`,
  `VerifySCT`, `VerifyEmbeddedSCT`, `getAlternatePublicKey`.

Go functions that return `(value, error)` become functions into `Run`, a
writer over the observable calls the function makes (environment reads, file
reads, TUF client calls, writes to standard error, SCT signature checks)
together with the list of pending `defer`red calls.  Everything the two
packages import from elsewhere (the operating system, the TUF client, the
X.509, PEM and certificate-transparency libraries) is a field of `Env`.
-/

namespace Fulcio

/-! ## Data -/

/-- A Go byte slice.  No arithmetic is done on the bytes, only comparisons. -/
abbrev Bytes := List Nat

/-- The Go array type `[sha256.Size]byte`, the key of the log-key map. -/
abbrev SHA256Hash := Bytes

/-- A Go `error` value: `errors.New` / `fmt.Errorf` build `new`,
`errors.Wrap` builds `wrap`. -/
inductive Error where
  | new (msg : String)
  | wrap (cause : Error) (msg : String)
  deriving DecidableEq, Repr

/-- Modelled from the spec: the type `tuf.StatusKind` of package
`pkg/cosign/tuf`, which the spec gives as `StatusKind ∈ {Active, Expired}`. -/
inductive StatusKind where
  | Active
  | Expired
  deriving DecidableEq, Repr

/-- Modelled from the spec: the type `tuf.UsageKind` of package
`pkg/cosign/tuf`, the role under which artifacts are queried; the two
values the sources use are `tuf.Fulcio` and `tuf.CTFE`. -/
inductive UsageKind where
  | Fulcio
  | CTFE
  deriving DecidableEq, Repr

/-- Modelled from the spec: the type `tuf.TargetFile`, a byte payload
plus a status (`RemoteTarget` in the spec). -/
structure TargetFile where
  Target : Bytes
  Status : StatusKind
  deriving DecidableEq, Repr

/-- A `crypto.PublicKey`: an interface value whose dynamic type is one of the
key types the Go standard library decodes. -/
inductive PublicKey where
  | ecdsa (key : Bytes)
  | rsa (key : Bytes)
  | ed25519 (key : Bytes)
  deriving DecidableEq, Repr

/-- The text `%T` prints for a public key. -/
def PublicKey.typeName : PublicKey → String
  | .ecdsa _ => "*ecdsa.PublicKey"
  | .rsa _ => "*rsa.PublicKey"
  | .ed25519 _ => "ed25519.PublicKey"

/-- The fields of an X.509 certificate that the two packages read. -/
structure Certificate where
  Raw : Bytes
  RawSubject : Bytes
  RawIssuer : Bytes
  deriving DecidableEq, Repr

/-- The struct `ct.LogID`. -/
structure LogID where
  KeyID : SHA256Hash
  deriving DecidableEq, Repr

/-- The struct `ct.SignedCertificateTimestamp`. -/
structure SignedCertificateTimestamp where
  LogID : LogID
  Timestamp : Nat
  Extensions : Bytes
  Signature : Bytes
  deriving DecidableEq, Repr

/-- The struct `ct.AddChainResponse`, the JSON body of a detached SCT. -/
structure AddChainResponse where
  ID : Bytes
  Timestamp : Nat
  Extensions : String
  Signature : Bytes
  deriving DecidableEq, Repr

/-- The struct `pem.Block` (its field `Type` is `Kind` here). -/
structure PemBlock where
  Kind : String
  Bytes : Bytes
  deriving DecidableEq, Repr

/-- A `context.Context`. -/
inductive Context where
  | background
  | other (id : Nat)
  deriving DecidableEq, Repr

/-- The struct `logIDMetadata` of `verify.go`. -/
structure logIDMetadata where
  pubKey : PublicKey
  status : StatusKind
  deriving DecidableEq, Repr

/-- The Go map `map[[sha256.Size]byte]logIDMetadata`: an association list
with at most one entry per key. -/
abbrev Registry := List (SHA256Hash × logIDMetadata)

/-- The map read `m[k]` with its `ok` flag. -/
def Registry.get (m : Registry) (k : SHA256Hash) : Option logIDMetadata :=
  match m with
  | [] => none
  | (k', v) :: rest => if k' = k then some v else Registry.get rest k

/-- The map write `m[k] = v`: an existing entry for `k` is replaced. -/
def Registry.set (m : Registry) (k : SHA256Hash) (v : logIDMetadata) : Registry :=
  (k, v) :: m.filter (fun e => decide (e.1 ≠ k))

/-- An `x509.CertPool`: the certificates added so far, each once. -/
abbrev CertPool := List Certificate

/-- The method `(*CertPool).AddCert`: a certificate already in the pool is not added again. -/
def CertPool.AddCert (s : CertPool) (cert : Certificate) : CertPool :=
  if cert ∈ s then s else s ++ [cert]

/-! ## Observable calls -/

/-- The calls to the outside world that a run performs, in order. -/
inductive Event where
  | getenv (name : String)
  | readFile (path : String)
  | tufNew (ctx : Context)
  | tufGetTargets (usage : UsageKind) (names : List String)
  | tufClose
  | stderr (msg : String)
  | verifySCT (pubKey : PublicKey) (chain : List Certificate)
      (sct : SignedCertificateTimestamp) (embedded : Bool)
  deriving DecidableEq, Repr

/-- The outcome of running a piece of Go code: the calls made, the calls
registered with `defer` and not yet run (most recent first), and the value or
error returned. -/
structure Run (α : Type) where
  trace : List Event
  deferred : List Event
  res : Except Error α

namespace Run

/-- Return a value, doing nothing. -/
def ret {α : Type} (a : α) : Run α := ⟨[], [], .ok a⟩

/-- The statement `return err`. -/
def fail {α : Type} (e : Error) : Run α := ⟨[], [], .error e⟩

/-- Sequencing: the second part runs only when the first returned no error. -/
def andThen {α β : Type} (m : Run α) (f : α → Run β) : Run β :=
  match m.res with
  | .error e => ⟨m.trace, m.deferred, .error e⟩
  | .ok a => ⟨m.trace ++ (f a).trace, (f a).deferred ++ m.deferred, (f a).res⟩

instance : Monad Run where
  pure := ret
  bind := andThen

/-- The result of a call that is not recorded. -/
def lift {α : Type} (x : Except Error α) : Run α := ⟨[], [], x⟩

/-- Record one call. -/
def emit (ev : Event) : Run Unit := ⟨[ev], [], .ok ()⟩

/-- Record a call and take its result. -/
def call {α : Type} (ev : Event) (x : Except Error α) : Run α := ⟨[ev], [], x⟩

/-- The statement `defer f()`. -/
def defer (ev : Event) : Run Unit := ⟨[], [ev], .ok ()⟩

/-- The function boundary: on return, by value or by error, the deferred calls run. -/
def func {α : Type} (m : Run α) : Run α := ⟨m.trace ++ m.deferred, [], m.res⟩

/-- The idiom `if err != nil { return errors.Wrap(err, msg) }` around a call. -/
def wrapErr {α : Type} (m : Run α) (msg : String) : Run α :=
  ⟨m.trace, m.deferred, m.res.mapError (fun e => Error.wrap e msg)⟩

end Run

/-- The messages written to standard error during a run. -/
def stderrOf : List Event → List String
  | [] => []
  | .stderr msg :: rest => msg :: stderrOf rest
  | _ :: rest => stderrOf rest

/-- The signature checks performed during a run. -/
def verifyCalls : List Event → List Event
  | [] => []
  | .verifySCT k c s b :: rest => .verifySCT k c s b :: verifyCalls rest
  | _ :: rest => verifyCalls rest

/-! ## The outside world -/

/-- A `*tuf.TUF` client, as far as the sources use it. -/
structure TUFClient where
  GetTargetsByMeta : UsageKind → List String → Except Error (List TargetFile)

/-- Everything the two packages call and do not define. -/
structure Env where
  /-- The function `os.Getenv`. -/
  Getenv : String → String
  /-- The function `os.ReadFile`. -/
  ReadFile : String → Except Error Bytes
  /-- The function `tuf.NewFromEnv`. -/
  NewFromEnv : Context → Except Error TUFClient
  /-- The function `cryptoutils.UnmarshalPEMToPublicKey`. -/
  UnmarshalPEMToPublicKey : Bytes → Except Error PublicKey
  /-- The function `cryptoutils.UnmarshalCertificatesFromPEM`. -/
  UnmarshalCertificatesFromPEM : Bytes → Except Error (List Certificate)
  /-- The function `cryptoutils.MarshalCertificateToPEM`. -/
  MarshalCertificateToPEM : Certificate → Except Error Bytes
  /-- The function `cryptoutils.MarshalCertificatesToPEM`. -/
  MarshalCertificatesToPEM : List Certificate → Except Error Bytes
  /-- The certificates that `(*CertPool).AppendCertsFromPEM` decodes from a PEM text. -/
  CertsOfPEM : Bytes → List Certificate
  /-- The function `ctutil.GetCTLogID`. -/
  GetCTLogID : PublicKey → Except Error SHA256Hash
  /-- The function `ctutil.VerifySCT`. -/
  ctutilVerifySCT : PublicKey → List Certificate → SignedCertificateTimestamp → Bool →
    Except Error Unit
  /-- The function `x509util.CertificateFromPEM`. -/
  CertificateFromPEM : Bytes → Except Error Certificate
  /-- The function `x509util.CertificatesFromPEM`. -/
  CertificatesFromPEM : Bytes → Except Error (List Certificate)
  /-- The function `x509util.ParseSCTsFromCertificate`. -/
  ParseSCTsFromCertificate : Bytes → Except Error (List SignedCertificateTimestamp)
  /-- The function `json.Unmarshal` into a `ct.AddChainResponse`. -/
  jsonUnmarshal : Bytes → Except Error AddChainResponse
  /-- The method `(*ct.AddChainResponse).ToSignedCertificateTimestamp`. -/
  ToSignedCertificateTimestamp : AddChainResponse → Except Error SignedCertificateTimestamp
  /-- The function `pem.Decode`, without the rest of the input; `none` is a nil block. -/
  pemDecode : Bytes → Option PemBlock
  /-- The function `x509.ParsePKIXPublicKey`. -/
  ParsePKIXPublicKey : Bytes → Except Error PublicKey
  /-- The function `x509.ParsePKCS1PublicKey`; the result is an RSA key. -/
  ParsePKCS1PublicKey : Bytes → Except Error Bytes

/-! ## Package `ctl` (`verify.go`) -/

/-- The CT log public key target name. -/
def ctPublicKeyStr : String := "ctfe.pub"

/-- The environment variable that overrides the key used to validate the SCT. -/
def altCTLogPublicKeyLocation : String := "SIGSTORE_CT_LOG_PUBLIC_KEY_FILE"

/-- The function `getAlternatePublicKey` (`verify.go`, lines 209-229). -/
def getAlternatePublicKey (env : Env) (input : Bytes) : Run PublicKey := do
  let derBytes ←
    (match env.pemDecode input with
      | none => do
          Run.emit (.stderr "Failed to decode non-standard public key for verifying SCT using PEM decode, trying as DER")
          pure input
      | some pemBlock => pure pemBlock.Bytes : Run Bytes)
  match env.ParsePKIXPublicKey derBytes with
  | .ok pubKey => pure pubKey
  | .error _ =>
    -- Try using the PKCS1 before giving up.
    match env.ParsePKCS1PublicKey derBytes with
    | .ok rsaKey => pure (PublicKey.rsa rsaKey)
    | .error err => Run.fail (Error.wrap err "failed to parse alternate public key")

/-- The DER bytes in the words of the spec: the payload of the first PEM
block when PEM decoding finds one, the input itself otherwise. -/
def specDER (env : Env) (input : Bytes) : Bytes :=
  match env.pemDecode input with
  | some pemBlock => pemBlock.Bytes
  | none => input

/-- The fallback chain in the words of the spec: the PKIX decoding of the DER
bytes when that succeeds, otherwise their PKCS1 RSA decoding when that
succeeds, otherwise a parse error. -/
def specAlternatePublicKey (env : Env) (input : Bytes) : Except Error PublicKey :=
  match env.ParsePKIXPublicKey (specDER env input) with
  | .ok pubKey => .ok pubKey
  | .error _ =>
    match env.ParsePKCS1PublicKey (specDER env input) with
    | .ok rsaKey => .ok (PublicKey.rsa rsaKey)
    | .error err => .error (Error.wrap err "failed to parse alternate public key")

/-- The function `ContainsSCT` (`verify.go`, lines 53-62). -/
def ContainsSCT (env : Env) (cert : Bytes) : Except Error Bool :=
  match env.ParseSCTsFromCertificate cert with
  | .error err => .error err
  | .ok embeddedSCTs => if embeddedSCTs.length ≠ 0 then .ok true else .ok false

/-- The loop `for _, t := range targets` of `VerifySCT` (lines 91-105), from
the map built so far. -/
def ctfeTargets (env : Env) : List TargetFile → Registry → Run Registry
  | [], pubKeys => pure pubKeys
  | t :: targets, pubKeys => do
    let pub ← Run.lift (env.UnmarshalPEMToPublicKey t.Target)
    match pub with
    | .ecdsa key => do
      let keyID ← Run.wrapErr (Run.lift (env.GetCTLogID (.ecdsa key)))
        "error getting CTFE public key hash"
      ctfeTargets env targets (pubKeys.set keyID ⟨.ecdsa key, t.Status⟩)
    | other =>
      Run.fail (Error.new ("invalid public key: was " ++ other.typeName ++
        ", require *ecdsa.PublicKey"))

/-- The first part of `VerifySCT`, "fetch SCT verification key" (lines 78-121):
the map of log keys, from TUF or from the file named by the environment. -/
def fetchPubKeys (env : Env) (ctx : Context) : Run Registry := do
  let pubKeys : Registry := []
  let rootEnv ← Run.call (.getenv altCTLogPublicKeyLocation)
    (.ok (env.Getenv altCTLogPublicKeyLocation))
  if rootEnv = "" then do
    let tufClient ← Run.call (.tufNew ctx) (env.NewFromEnv ctx)
    Run.defer .tufClose
    let targets ← Run.call (.tufGetTargets .CTFE [ctPublicKeyStr])
      (tufClient.GetTargetsByMeta .CTFE [ctPublicKeyStr])
    ctfeTargets env targets pubKeys
  else do
    Run.emit (.stderr ("**Warning** Using a non-standard public key for verifying SCT: " ++
      rootEnv ++ "\n"))
    let raw ← Run.wrapErr (Run.call (.readFile rootEnv) (env.ReadFile rootEnv))
      "error reading alternate public key file"
    let pubKey ← Run.wrapErr (getAlternatePublicKey env raw)
      "error parsing alternate public key from the file"
    let keyID ← Run.wrapErr (Run.lift (env.GetCTLogID pubKey))
      "error getting CTFE public key hash"
    pure (pubKeys.set keyID ⟨pubKey, .Active⟩)

/-- The loop `for _, sct := range embeddedSCTs` of `VerifySCT` (lines 151-164),
with `issuer` the value of `certChain[0]`. -/
def embeddedLoop (env : Env) (pubKeys : Registry) (cert issuer : Certificate) :
    List SignedCertificateTimestamp → Run Unit
  | [] => pure ()
  | sct :: rest =>
    match pubKeys.get sct.LogID.KeyID with
    | none => Run.fail (Error.new "ctfe public key not found for embedded SCT")
    | some pubKeyMetadata => do
      Run.wrapErr
        (Run.call (.verifySCT pubKeyMetadata.pubKey [cert, issuer] sct true)
          (env.ctutilVerifySCT pubKeyMetadata.pubKey [cert, issuer] sct true))
        "error verifying embedded SCT"
      if pubKeyMetadata.status ≠ .Active then
        Run.emit (.stderr
          "**Info** Successfully verified embedded SCT using an expired verification key\n")
      embeddedLoop env pubKeys cert issuer rest

/-- The second part of `VerifySCT` (lines 122-187): everything after the map
of log keys is built. -/
def checkSCT (env : Env) (pubKeys : Registry) (certPEM chainPEM rawSCT : Bytes) : Run Unit := do
  if pubKeys.length = 0 then
    Run.fail (Error.new "none of the CTFE keys have been found")
  else do
  -- parse certificate and chain
  let cert ← Run.lift (env.CertificateFromPEM certPEM)
  let certChain ← Run.lift (env.CertificatesFromPEM chainPEM)
  if h : certChain.length = 0 then
    Run.fail (Error.new "no certificate chain found")
  else do
  have h0 : 0 < certChain.length := Nat.pos_of_ne_zero h
  -- fetch embedded SCT if present
  let embeddedSCTs ← Run.lift (env.ParseSCTsFromCertificate certPEM)
  -- SCT must be either embedded or in header
  if embeddedSCTs.length = 0 ∧ rawSCT.length = 0 then
    Run.fail (Error.new "no SCT found")
  else do
  -- check SCT embedded in certificate
  if embeddedSCTs.length ≠ 0 then
    embeddedLoop env pubKeys cert certChain[0] embeddedSCTs
  else do
  -- check SCT in response header
  let addChainResp ← Run.wrapErr (Run.lift (env.jsonUnmarshal rawSCT)) "unmarshal"
  let sct ← Run.lift (env.ToSignedCertificateTimestamp addChainResp)
  match pubKeys.get sct.LogID.KeyID with
  | none => Run.fail (Error.new "ctfe public key not found")
  | some pubKeyMetadata => do
    Run.wrapErr
      (Run.call (.verifySCT pubKeyMetadata.pubKey [cert] sct false)
        (env.ctutilVerifySCT pubKeyMetadata.pubKey [cert] sct false))
      "error verifying SCT"
    if pubKeyMetadata.status ≠ .Active then
      Run.emit (.stderr "**Info** Successfully verified SCT using an expired verification key\n")
    pure ()

/-- The function `VerifySCT` (`verify.go`, lines 76-188). -/
def VerifySCT (env : Env) (ctx : Context) (certPEM chainPEM rawSCT : Bytes) : Run Unit :=
  Run.func (do
    let pubKeys ← fetchPubKeys env ctx
    checkSCT env pubKeys certPEM chainPEM rawSCT)

/-- Two results of `tuf.NewFromEnv` that differ at most in the status of the
targets their clients serve: the same error, or clients that answer every
query with the same error or with targets of the same bytes in the same order. -/
def sameUpToStatus (a b : Except Error TUFClient) : Prop :=
  match a, b with
  | .error e1, .error e2 => e1 = e2
  | .ok c1, .ok c2 =>
    ∀ usage names,
      match c1.GetTargetsByMeta usage names, c2.GetTargetsByMeta usage names with
      | .error e1, .error e2 => e1 = e2
      | .ok t1, .ok t2 => t1.map (fun t => t.Target) = t2.map (fun t => t.Target)
      | _, _ => False
  | _, _ => False

/-- The advisory written after an embedded SCT verified under a key that is not active. -/
def embeddedAdvisory : String :=
  "**Info** Successfully verified embedded SCT using an expired verification key\n"

/-- The advisory written after a detached SCT verified under a key that is not active. -/
def detachedAdvisory : String :=
  "**Info** Successfully verified SCT using an expired verification key\n"

/-- The function `VerifyEmbeddedSCT` (`verify.go`, lines 191-204). -/
def VerifyEmbeddedSCT (env : Env) (ctx : Context) (chain : List Certificate) : Run Unit :=
  Run.func (
    if h : chain.length < 2 then
      Run.fail (Error.new "certificate chain must contain at least a certificate and its issuer")
    else do
      have h0 : 0 < chain.length := by omega
      let certPEM ← Run.lift (env.MarshalCertificateToPEM chain[0])
      let chainPEM ← Run.lift (env.MarshalCertificatesToPEM (chain.drop 1))
      VerifySCT env ctx certPEM chainPEM [])

/-! ## Package `fulcioroots` (`fulcioroots.go`) -/

/-- This is the root in the fulcio project. -/
def fulcioTargetStr : String := "fulcio.crt.pem"

/-- This is the v1 migrated root. -/
def fulcioV1TargetStr : String := "fulcio_v1.crt.pem"

/-- The untrusted intermediate CA certificate, used for chain building. -/
def fulcioIntermediateV1 : String :=
"-----BEGIN CERTIFICATE-----
MIICGjCCAaGgAwIBAgIUALnViVfnU0brJasmRkHrn/UnfaQwCgYIKoZIzj0EAwMw
KjEVMBMGA1UEChMMc2lnc3RvcmUuZGV2MREwDwYDVQQDEwhzaWdzdG9yZTAeFw0y
MjA0MTMyMDA2MTVaFw0zMTEwMDUxMzU2NThaMDcxFTATBgNVBAoTDHNpZ3N0b3Jl
LmRldjEeMBwGA1UEAxMVc2lnc3RvcmUtaW50ZXJtZWRpYXRlMHYwEAYHKoZIzj0C
AQYFK4EEACIDYgAE8RVS/ysH+NOvuDZyPIZtilgUF9NlarYpAd9HP1vBBH1U5CV7
7LSS7s0ZiH4nE7Hv7ptS6LvvR/STk798LVgMzLlJ4HeIfF3tHSaexLcYpSASr1kS
0N/RgBJz/9jWCiXno3sweTAOBgNVHQ8BAf8EBAMCAQYwEwYDVR0lBAwwCgYIKwYB
BQUHAwMwEgYDVR0TAQH/BAgwBgEB/wIBADAdBgNVHQ4EFgQU39Ppz1YkEZb5qNjp
KFWixi4YZD8wHwYDVR0jBBgwFoAUWMAeX5FFpWapesyQoZMi0CrFxfowCgYIKoZI
zj0EAwMDZwAwZAIwPCsQK4DYiZYDPIaDi5HFKnfxXx6ASSVmERfsynYBiX2X6SJR
nZU84/9DZdnFvvxmAjBOt6QpBlc4J/0DxvkTCqpclvziL6BCCPnjdlIB3Pu3BxsP
mygUY7Ii2zbdCdliiow=
-----END CERTIFICATE-----"

/-- The name of the environment variable that names a local root file. -/
def altRoot : String := "SIGSTORE_ROOT_FILE"

/-- The conversion `[]byte(s)`. -/
def bytesOf (s : String) : Bytes := s.toUTF8.toList.map UInt8.toNat

/-- The method `(*CertPool).AppendCertsFromPEM`: every certificate decoded from
the PEM text is added. -/
def CertPool.AppendCertsFromPEM (env : Env) (s : CertPool) (pemCerts : Bytes) : CertPool :=
  (env.CertsOfPEM pemCerts).foldl CertPool.AddCert s

/-- The loop `for _, cert := range certs` of `initRoots` (lines 99-106 and
127-133), from the pair (root pool, intermediate pool) built so far. -/
def addCerts : List Certificate → CertPool × CertPool → CertPool × CertPool
  | [], pools => pools
  | cert :: certs, (rootPool, intermediatePool) =>
    -- root certificates are self-signed
    if cert.RawSubject = cert.RawIssuer then
      addCerts certs (rootPool.AddCert cert, intermediatePool)
    else
      addCerts certs (rootPool, intermediatePool.AddCert cert)

/-- The loop `for _, t := range targets` of `initRoots` (lines 122-135). -/
def addTargets (env : Env) : List TargetFile → CertPool × CertPool → Run (CertPool × CertPool)
  | [], pools => pure pools
  | t :: targets, pools => do
    let certs ← Run.wrapErr (Run.lift (env.UnmarshalCertificatesFromPEM t.Target))
      "error unmarshalling certificates"
    addTargets env targets (addCerts certs pools)

/-- The idiom `if err != nil { return errors.New(msg) }` around a call. -/
def Run.newErr {α : Type} (m : Run α) (msg : String) : Run α :=
  ⟨m.trace, m.deferred, m.res.mapError (fun _ => Error.new msg)⟩

/-- The function `initRoots` (`fulcioroots.go`, lines 85-139); the result is
the pair (root pool, intermediate pool). -/
def initRoots (env : Env) : Run (CertPool × CertPool) :=
  Run.func (do
    let rootPool : CertPool := []
    let intermediatePool : CertPool := []
    let rootEnv ← Run.call (.getenv altRoot) (.ok (env.Getenv altRoot))
    if rootEnv ≠ "" then do
      let raw ← Run.wrapErr (Run.call (.readFile rootEnv) (env.ReadFile rootEnv))
        "error reading root PEM file"
      let certs ← Run.wrapErr (Run.lift (env.UnmarshalCertificatesFromPEM raw))
        "error unmarshalling certificates"
      pure (addCerts certs (rootPool, intermediatePool))
    else do
      let tufClient ← Run.wrapErr (Run.call (.tufNew .background) (env.NewFromEnv .background))
        "initializing tuf"
      Run.defer .tufClose
      -- Retrieve from the embedded or cached TUF root.
      let targets ← Run.newErr
        (Run.call (.tufGetTargets .Fulcio [fulcioTargetStr, fulcioV1TargetStr])
          (tufClient.GetTargetsByMeta .Fulcio [fulcioTargetStr, fulcioV1TargetStr]))
        "error getting targets"
      if targets.length = 0 then
        Run.fail (Error.new "none of the Fulcio roots have been found")
      else do
      let pools ← addTargets env targets (rootPool, intermediatePool)
      pure (pools.1, CertPool.AppendCertsFromPEM env pools.2 (bytesOf fulcioIntermediateV1)))

/-- The package variables `rootsOnce`, `roots` and `intermediates`; a nil
pool pointer is `none`. -/
structure Globals where
  rootsOnce : Bool
  roots : Option CertPool
  intermediates : Option CertPool
  deriving DecidableEq, Repr

/-- The package variables when the process starts. -/
def Globals.start : Globals := ⟨false, none, none⟩

/-- How a call of `Get` or `GetIntermediates` ends: it returns a pool
pointer, or it panics with an error value. -/
inductive Ended where
  | returned (pool : Option CertPool)
  | panicked (err : Error)
  deriving DecidableEq, Repr

/-- The statement `rootsOnce.Do(func() { ... })` shared by `Get` and
`GetIntermediates` (lines 64-70 and 75-81): the new package variables, the
calls made, and the panic value if the function panicked.  `sync.Once`
marks itself done also when the function panics. -/
def rootsOnceDo (env : Env) (g : Globals) : Globals × List Event × Option Error :=
  if g.rootsOnce then (g, [], none)
  else
    match (initRoots env).res with
    | .ok pools => (⟨true, some pools.1, some pools.2⟩, (initRoots env).trace, none)
    | .error err => (⟨true, none, none⟩, (initRoots env).trace, some err)

/-- The function `Get` (lines 63-72). -/
def Get (env : Env) (g : Globals) : Globals × List Event × Ended :=
  match rootsOnceDo env g with
  | (g', tr, some err) => (g', tr, .panicked err)
  | (g', tr, none) => (g', tr, .returned g'.roots)

/-- The function `GetIntermediates` (lines 74-83). -/
def GetIntermediates (env : Env) (g : Globals) : Globals × List Event × Ended :=
  match rootsOnceDo env g with
  | (g', tr, some err) => (g', tr, .panicked err)
  | (g', tr, none) => (g', tr, .returned g'.intermediates)

/-- One of the two accessors. -/
inductive Call where
  | get
  | getIntermediates
  deriving DecidableEq, Repr

/-- Run one accessor. -/
def Call.run (env : Env) (g : Globals) : Call → Globals × List Event × Ended
  | .get => Get env g
  | .getIntermediates => GetIntermediates env g

/-- A sequence of accessor calls in one process, each under the outside world
of its moment (a recovered panic lets the process go on): the calls made and
how each accessor call ended. -/
def runCalls : Globals → List (Call × Env) → List Event × List Ended
  | _, [] => ([], [])
  | g, (c, env) :: rest =>
    let r := c.run env g
    let rs := runCalls r.1 rest
    (r.2.1 ++ rs.1, r.2.2 :: rs.2)

/-- How many times `initRoots` ran: it reads the variable `SIGSTORE_ROOT_FILE`
once, first thing, and nothing else reads it. -/
def initRootsCount (tr : List Event) : Nat :=
  tr.count (.getenv altRoot)

/-! ## Sample worlds -/

namespace Sample

/-- An error of the outside world. -/
def unavailable : Error := .new "unavailable"

/-- A world in which every call fails and no variable is set. -/
def nothing : Env where
  Getenv := fun _ => ""
  ReadFile := fun _ => .error unavailable
  NewFromEnv := fun _ => .error unavailable
  UnmarshalPEMToPublicKey := fun _ => .error unavailable
  UnmarshalCertificatesFromPEM := fun _ => .error unavailable
  MarshalCertificateToPEM := fun _ => .error unavailable
  MarshalCertificatesToPEM := fun _ => .error unavailable
  CertsOfPEM := fun _ => []
  GetCTLogID := fun _ => .error unavailable
  ctutilVerifySCT := fun _ _ _ _ => .error unavailable
  CertificateFromPEM := fun _ => .error unavailable
  CertificatesFromPEM := fun _ => .error unavailable
  ParseSCTsFromCertificate := fun _ => .error unavailable
  jsonUnmarshal := fun _ => .error unavailable
  ToSignedCertificateTimestamp := fun _ => .error unavailable
  pemDecode := fun _ => none
  ParsePKIXPublicKey := fun _ => .error unavailable
  ParsePKCS1PublicKey := fun _ => .error unavailable

/-- The log identifier made of 32 bytes `b`. -/
def keyID (b : Nat) : SHA256Hash := List.replicate 32 b

/-- The key of the sample log. -/
def logKey : PublicKey := .ecdsa [4, 1, 2]

/-- A leaf certificate. -/
def leaf : Certificate := ⟨[48, 1], [10], [20]⟩

/-- The certificate that issued `leaf`; it is self-signed. -/
def issuer : Certificate := ⟨[48, 2], [20], [20]⟩

/-- An SCT of the log with identifier `keyID b`. -/
def sct (b : Nat) (sig : Bytes) : SignedCertificateTimestamp := ⟨⟨keyID b⟩, 1000, [], sig⟩

/-- A world with the sample log key in a local file.  The key file `ct.pub`
is raw DER in PKIX form and its key has the log identifier `keyID 1`; the
bytes `[45, 4, 1, 2]` are the same key wrapped in PEM and `[5, 5]` is a raw
DER PKCS1 RSA key.  The PEM text `[1]` is `leaf` and the PEM text `[2]` is the
chain `[issuer]`; `leaf` carries the SCTs `embedded`.  A detached payload
`[3, b, g]` decodes to the SCT of the log `keyID b` with signature `[g]`, and
a signature is good exactly when it is `[7]`. -/
def keyFile (embedded : List SignedCertificateTimestamp) : Env :=
  { nothing with
    Getenv := fun name => if name = altCTLogPublicKeyLocation then "ct.pub" else ""
    ReadFile := fun path => if path = "ct.pub" then .ok [4, 1, 2] else .error unavailable
    pemDecode := fun p => if p = [45, 4, 1, 2] then some ⟨"PUBLIC KEY", [4, 1, 2]⟩ else none
    ParsePKIXPublicKey := fun der => if der = [4, 1, 2] then .ok logKey else .error unavailable
    ParsePKCS1PublicKey := fun der => if der = [5, 5] then .ok [5, 5] else .error unavailable
    GetCTLogID := fun k => if k = logKey then .ok (keyID 1) else .error unavailable
    CertificateFromPEM := fun p => if p = [1] then .ok leaf else .error unavailable
    CertificatesFromPEM := fun p => if p = [2] then .ok [issuer] else .error unavailable
    MarshalCertificateToPEM := fun c => if c = leaf then .ok [1] else .error unavailable
    MarshalCertificatesToPEM := fun l => if l = [issuer] then .ok [2] else .error unavailable
    ParseSCTsFromCertificate := fun p => if p = [1] then .ok embedded else .error unavailable
    jsonUnmarshal := fun p =>
      match p with
      | [3, b, g] => .ok ⟨keyID b, 1000, "", [g]⟩
      | _ => .error unavailable
    ToSignedCertificateTimestamp := fun r => .ok ⟨⟨r.ID⟩, r.Timestamp, [], r.Signature⟩
    ctutilVerifySCT := fun _ _ s _ => if s.Signature = [7] then .ok () else .error unavailable }

/-- The world of `keyFile` with the log key served by TUF instead, as the one
target `ctfe.pub` with the given status, and no variable set. -/
def keyTUF (status : StatusKind) (embedded : List SignedCertificateTimestamp) : Env :=
  { keyFile embedded with
    Getenv := fun _ => ""
    NewFromEnv := fun _ => .ok ⟨fun usage _ =>
      if usage = .CTFE then .ok [⟨[4, 1, 2], status⟩] else .error unavailable⟩
    UnmarshalPEMToPublicKey := fun p => if p = [4, 1, 2] then .ok logKey else .error unavailable }

/-- A self-signed certificate `A`. -/
def certA : Certificate := ⟨[48, 65], [65], [65]⟩

/-- A certificate `B` issued by `A`. -/
def certB : Certificate := ⟨[48, 66], [66], [65]⟩

/-- The hardcoded intermediate, decoded. -/
def certV1 : Certificate := ⟨[48, 86], [86], [65]⟩

/-- A world with a local root file `roots.pem` that holds `A` and `B`; the
hardcoded PEM text decodes to `certV1`. -/
def rootFile : Env :=
  { nothing with
    Getenv := fun name => if name = altRoot then "roots.pem" else ""
    ReadFile := fun path => if path = "roots.pem" then .ok [9] else .error unavailable
    UnmarshalCertificatesFromPEM := fun p =>
      if p = [9] then .ok [certA, certB] else .error unavailable
    CertsOfPEM := fun _ => [certV1] }

/-- A world in which TUF serves the given targets for the Fulcio roots; the
target `[9]` holds `A` and `B`, and the hardcoded PEM text decodes to `certV1`. -/
def rootTUF (targets : List TargetFile) : Env :=
  { nothing with
    NewFromEnv := fun _ => .ok ⟨fun usage _ =>
      if usage = .Fulcio then .ok targets else .error unavailable⟩
    UnmarshalCertificatesFromPEM := fun p =>
      if p = [9] then .ok [certA, certB] else .error unavailable
    CertsOfPEM := fun _ => [certV1] }

end Sample

/-! ## Laws of `Run` -/

section RunLaws

variable {α β : Type}

@[simp] theorem Run.pure_eq (a : α) : (pure a : Run α) = Run.ret a := rfl

@[simp] theorem Run.bind_eq (m : Run α) (f : α → Run β) : (m >>= f) = Run.andThen m f := rfl

@[simp] theorem Run.andThen_lift_ok (a : α) (f : α → Run β) :
    Run.andThen (Run.lift (.ok a)) f = f a := by
  simp [Run.andThen, Run.lift]

@[simp] theorem Run.andThen_lift_error (e : Error) (f : α → Run β) :
    Run.andThen (Run.lift (.error e : Except Error α)) f = Run.fail e := by
  simp [Run.andThen, Run.lift, Run.fail]

theorem Run.andThen_call_ok (ev : Event) (a : α) (f : α → Run β) :
    Run.andThen (Run.call ev (.ok a)) f = ⟨ev :: (f a).trace, (f a).deferred, (f a).res⟩ := by
  simp [Run.andThen, Run.call]

@[simp] theorem Run.andThen_ret (a : α) (f : α → Run β) :
    Run.andThen (Run.ret a) f = f a := by
  simp [Run.andThen, Run.ret]

@[simp] theorem Run.andThen_fail (e : Error) (f : α → Run β) :
    Run.andThen (Run.fail e : Run α) f = Run.fail e := by
  simp [Run.andThen, Run.fail]

@[simp] theorem Run.wrapErr_lift (x : Except Error α) (msg : String) :
    Run.wrapErr (Run.lift x) msg = Run.lift (x.mapError (fun e => Error.wrap e msg)) := rfl

theorem Run.andThen_res_ok {m : Run α} {a : α} (h : m.res = .ok a) (f : α → Run β) :
    (Run.andThen m f).res = (f a).res := by
  simp [Run.andThen, h]

theorem Run.andThen_res_error {m : Run α} {e : Error} (h : m.res = .error e) (f : α → Run β) :
    (Run.andThen m f).res = .error e := by
  simp [Run.andThen, h]

@[simp] theorem Run.func_res (m : Run α) : (Run.func m).res = m.res := rfl

@[simp] theorem Run.func_trace (m : Run α) : (Run.func m).trace = m.trace ++ m.deferred := rfl

@[simp] theorem Run.fail_res (e : Error) : (Run.fail e : Run α).res = .error e := rfl

@[simp] theorem Run.ret_res (a : α) : (Run.ret a).res = .ok a := rfl

@[simp] theorem Run.fail_trace (e : Error) : (Run.fail e : Run α).trace = [] := rfl

@[simp] theorem Run.ret_trace (a : α) : (Run.ret a).trace = [] := rfl

end RunLaws

/-! ## The embedded loop -/

/-- The embedded loop returns no error exactly when every SCT is matched in
the map and verifies under the matched key. -/
theorem embeddedLoop_ok_iff (env : Env) (pubKeys : Registry) (cert issuer : Certificate)
    (scts : List SignedCertificateTimestamp) :
    (embeddedLoop env pubKeys cert issuer scts).res = .ok () ↔
      ∀ s ∈ scts, ∃ md, pubKeys.get s.LogID.KeyID = some md ∧
        env.ctutilVerifySCT md.pubKey [cert, issuer] s true = .ok () := by
  induction scts with
  | nil => simp [embeddedLoop]
  | cons s rest ih =>
    simp only [embeddedLoop, List.mem_cons, forall_eq_or_imp]
    cases hget : pubKeys.get s.LogID.KeyID with
    | none => simp
    | some md =>
      cases hv : env.ctutilVerifySCT md.pubKey [cert, issuer] s true with
      | error e =>
        simp [Run.andThen, Run.wrapErr, Run.call, hv, Except.mapError]
      | ok u =>
        by_cases hs : md.status = .Active <;>
          simp [Run.andThen, Run.wrapErr, Run.call, Run.emit, hv, Except.mapError, hs, ih]

/-- Past the map of log keys, `VerifySCT` returns what `checkSCT` returns. -/
theorem VerifySCT_res_of_fetch {env : Env} {ctx : Context} {pubKeys : Registry}
    (h : (fetchPubKeys env ctx).res = .ok pubKeys) (certPEM chainPEM rawSCT : Bytes) :
    (VerifySCT env ctx certPEM chainPEM rawSCT).res =
      (checkSCT env pubKeys certPEM chainPEM rawSCT).res := by
  simp [VerifySCT, Run.andThen_res_ok h]

/-- With a non-empty map, parsed certificate and chain, and a non-empty
embedded list, `checkSCT` is the embedded loop. -/
theorem checkSCT_embedded {env : Env} {pubKeys : Registry} {certPEM chainPEM : Bytes}
    {cert issuer : Certificate} {rest : List Certificate}
    {scts : List SignedCertificateTimestamp}
    (hk : pubKeys ≠ [])
    (hc : env.CertificateFromPEM certPEM = .ok cert)
    (hch : env.CertificatesFromPEM chainPEM = .ok (issuer :: rest))
    (hs : env.ParseSCTsFromCertificate certPEM = .ok scts)
    (hne : scts ≠ []) (rawSCT : Bytes) :
    checkSCT env pubKeys certPEM chainPEM rawSCT = embeddedLoop env pubKeys cert issuer scts := by
  simp [checkSCT, hk, hc, hch, hs, hne]

/-! ## The map of log keys is built without signature checks -/

theorem verifyCalls_append (xs ys : List Event) :
    verifyCalls (xs ++ ys) = verifyCalls xs ++ verifyCalls ys := by
  induction xs with
  | nil => rfl
  | cons x xs ih => cases x <;> simp [verifyCalls, ih]

theorem ctfeTargets_silent (env : Env) (targets : List TargetFile) (pubKeys : Registry) :
    (ctfeTargets env targets pubKeys).trace = [] ∧
      (ctfeTargets env targets pubKeys).deferred = [] := by
  induction targets generalizing pubKeys with
  | nil => exact ⟨rfl, rfl⟩
  | cons t targets ih =>
    simp only [ctfeTargets, Run.bind_eq]
    cases hp : env.UnmarshalPEMToPublicKey t.Target with
    | error e => exact ⟨rfl, rfl⟩
    | ok pub =>
      cases pub with
      | ecdsa key =>
        cases hid : env.GetCTLogID (.ecdsa key) with
        | error e => simp [hid, Except.mapError, Run.fail]
        | ok keyID => simpa [hid, Except.mapError] using ih _
      | rsa key => simp [Run.fail]
      | ed25519 key => simp [Run.fail]

theorem getAlternatePublicKey_no_verify (env : Env) (input : Bytes) :
    verifyCalls (getAlternatePublicKey env input).trace = [] ∧
      (getAlternatePublicKey env input).deferred = [] := by
  unfold getAlternatePublicKey
  cases hd : env.pemDecode input with
  | none =>
    cases hx : env.ParsePKIXPublicKey input with
    | ok k => simp [Run.andThen, Run.emit, Run.ret, hx, verifyCalls]
    | error e =>
      cases hr : env.ParsePKCS1PublicKey input <;>
        simp [Run.andThen, Run.emit, Run.ret, Run.fail, hx, hr, verifyCalls]
  | some blk =>
    cases hx : env.ParsePKIXPublicKey blk.Bytes with
    | ok k => simp [Run.andThen, Run.ret, hx, verifyCalls]
    | error e =>
      cases hr : env.ParsePKCS1PublicKey blk.Bytes <;>
        simp [Run.andThen, Run.ret, Run.fail, hx, hr, verifyCalls]

theorem fetchPubKeys_no_verify (env : Env) (ctx : Context) :
    verifyCalls ((fetchPubKeys env ctx).trace ++ (fetchPubKeys env ctx).deferred) = [] := by
  unfold fetchPubKeys
  by_cases hroot : env.Getenv altCTLogPublicKeyLocation = ""
  · cases hnew : env.NewFromEnv ctx with
    | error e =>
      simp [Run.andThen, Run.call, hroot, hnew, verifyCalls]
    | ok client =>
      cases htg : client.GetTargetsByMeta .CTFE [ctPublicKeyStr] with
      | error e =>
        simp [Run.andThen, Run.call, Run.defer, hroot, hnew, htg, verifyCalls]
      | ok targets =>
        simp [Run.andThen, Run.call, Run.defer, hroot, hnew, htg, verifyCalls,
          (ctfeTargets_silent env targets []).1, (ctfeTargets_silent env targets []).2]
  · cases hrd : env.ReadFile (env.Getenv altCTLogPublicKeyLocation) with
    | error e =>
      simp [Run.andThen, Run.call, Run.emit, Run.wrapErr, hroot, hrd, verifyCalls,
        Except.mapError]
    | ok raw =>
      have h1 := (getAlternatePublicKey_no_verify env raw).1
      have h2 := (getAlternatePublicKey_no_verify env raw).2
      cases hk : (getAlternatePublicKey env raw).res with
      | error e =>
        simp [Run.andThen, Run.call, Run.emit, Run.wrapErr, hroot, hrd, verifyCalls,
          Except.mapError, hk, verifyCalls_append, h1, h2]
      | ok pubKey =>
        cases hid : env.GetCTLogID pubKey <;>
        simp [Run.andThen, Run.call, Run.emit, Run.wrapErr, hroot, hrd, verifyCalls,
          Except.mapError, hk, verifyCalls_append, h1, h2, hid, Run.lift, Run.ret]

/-- With no embedded SCT and an empty detached payload, `checkSCT` returns
the "no SCT found" error at once. -/
theorem checkSCT_no_evidence {env : Env} {pubKeys : Registry} {certPEM chainPEM rawSCT : Bytes}
    {cert issuer : Certificate} {rest : List Certificate}
    (hk : pubKeys ≠ [])
    (hc : env.CertificateFromPEM certPEM = .ok cert)
    (hch : env.CertificatesFromPEM chainPEM = .ok (issuer :: rest))
    (hs : env.ParseSCTsFromCertificate certPEM = .ok [])
    (hraw : rawSCT.length = 0) :
    checkSCT env pubKeys certPEM chainPEM rawSCT = Run.fail (.new "no SCT found") := by
  have hraw' : rawSCT = [] := List.eq_nil_of_length_eq_zero hraw
  simp [checkSCT, hk, hc, hch, hs, hraw']

/-- The detached payload is not read when the certificate carries SCTs. -/
theorem checkSCT_detached_unread {env : Env} {certPEM : Bytes}
    {scts : List SignedCertificateTimestamp}
    (hs : env.ParseSCTsFromCertificate certPEM = .ok scts) (hne : scts ≠ [])
    (pubKeys : Registry) (chainPEM rawSCT1 rawSCT2 : Bytes) :
    checkSCT env pubKeys certPEM chainPEM rawSCT1 =
      checkSCT env pubKeys certPEM chainPEM rawSCT2 := by
  unfold checkSCT
  by_cases hk : pubKeys.length = 0
  · simp [hk]
  · cases hc : env.CertificateFromPEM certPEM with
    | error e => simp [hk]
    | ok cert =>
      cases hch : env.CertificatesFromPEM chainPEM with
      | error e => simp [hk]
      | ok certChain =>
        cases certChain with
        | nil => simp [hk]
        | cons issuer rest => simp [hk, hs, hne]

/-! ## Claims on `VerifySCT` -/

/-- C1: embedded mode is all-or-nothing. When the map of log keys is built
non-empty, the certificate and a non-empty chain parse and the certificate
carries a non-empty list of SCTs, `VerifySCT` returns no error if and only
if every embedded SCT has its log identifier in the map and verifies under
the matched key over (leaf, chain[0]) with the precertificate flag true; one
embedded SCT that is unmatched or fails verification makes the call fail. -/
theorem VerifySCT_embedded_all_or_nothing (env : Env) (ctx : Context)
    (certPEM chainPEM rawSCT : Bytes) (pubKeys : Registry)
    (cert issuer : Certificate) (rest : List Certificate)
    (scts : List SignedCertificateTimestamp)
    (hreg : (fetchPubKeys env ctx).res = .ok pubKeys) (hk : pubKeys ≠ [])
    (hc : env.CertificateFromPEM certPEM = .ok cert)
    (hch : env.CertificatesFromPEM chainPEM = .ok (issuer :: rest))
    (hs : env.ParseSCTsFromCertificate certPEM = .ok scts) (hne : scts ≠ []) :
    ((VerifySCT env ctx certPEM chainPEM rawSCT).res = .ok () ↔
      ∀ s ∈ scts, ∃ md, pubKeys.get s.LogID.KeyID = some md ∧
        env.ctutilVerifySCT md.pubKey [cert, issuer] s true = .ok ()) ∧
    (∀ s ∈ scts,
      (pubKeys.get s.LogID.KeyID = none ∨
        ∃ md e, pubKeys.get s.LogID.KeyID = some md ∧
          env.ctutilVerifySCT md.pubKey [cert, issuer] s true = .error e) →
      ∃ e, (VerifySCT env ctx certPEM chainPEM rawSCT).res = .error e) := by
  have hiff : (VerifySCT env ctx certPEM chainPEM rawSCT).res = .ok () ↔
      ∀ s ∈ scts, ∃ md, pubKeys.get s.LogID.KeyID = some md ∧
        env.ctutilVerifySCT md.pubKey [cert, issuer] s true = .ok () := by
    rw [VerifySCT_res_of_fetch hreg, checkSCT_embedded hk hc hch hs hne]
    exact embeddedLoop_ok_iff env pubKeys cert issuer scts
  refine ⟨hiff, ?_⟩
  intro s hmem hbad
  cases hres : (VerifySCT env ctx certPEM chainPEM rawSCT).res with
  | error e => exact ⟨e, rfl⟩
  | ok u =>
    exfalso
    obtain ⟨md, hget, hver⟩ := hiff.mp hres s hmem
    rcases hbad with hnone | ⟨md', e, hget', hver'⟩
    · rw [hget] at hnone
      cases hnone
    · rw [hget] at hget'
      cases hget'
      rw [hver] at hver'
      cases hver'

/-- C1 at the sample key file with two good embedded SCTs: the call succeeds. -/
theorem VerifySCT_embedded_all_or_nothing_witness :
    (VerifySCT (Sample.keyFile [Sample.sct 1 [7], Sample.sct 1 [7]]) .background [1] [2] []).res
        = .ok () ∧
      ∃ e, (VerifySCT (Sample.keyFile [Sample.sct 1 [7], Sample.sct 2 [7]])
        .background [1] [2] []).res = .error e :=
  ⟨((VerifySCT_embedded_all_or_nothing
      (Sample.keyFile [Sample.sct 1 [7], Sample.sct 1 [7]]) .background [1] [2] []
      [(Sample.keyID 1, ⟨Sample.logKey, .Active⟩)] Sample.leaf Sample.issuer []
      [Sample.sct 1 [7], Sample.sct 1 [7]] rfl (by decide) rfl rfl rfl (by decide)).1).mpr
      (by
        intro s hmem
        simp only [List.mem_cons, List.mem_singleton, List.not_mem_nil, or_false, or_self] at hmem
        subst hmem
        exact ⟨⟨Sample.logKey, .Active⟩, rfl, rfl⟩),
   (VerifySCT_embedded_all_or_nothing
      (Sample.keyFile [Sample.sct 1 [7], Sample.sct 2 [7]]) .background [1] [2] []
      [(Sample.keyID 1, ⟨Sample.logKey, .Active⟩)] Sample.leaf Sample.issuer []
      [Sample.sct 1 [7], Sample.sct 2 [7]] rfl (by decide) rfl rfl rfl (by decide)).2
      (Sample.sct 2 [7]) (by decide) (Or.inl rfl)⟩

/-- C3: no SCT evidence at all. When the map of log keys is built non-empty
and the certificate and a non-empty chain parse, a certificate without
embedded SCTs together with a detached payload of length 0 makes
`VerifySCT` fail with the "no SCT found" error, and no signature check is
made. -/
theorem VerifySCT_no_SCT_found (env : Env) (ctx : Context)
    (certPEM chainPEM rawSCT : Bytes) (pubKeys : Registry)
    (cert issuer : Certificate) (rest : List Certificate)
    (hreg : (fetchPubKeys env ctx).res = .ok pubKeys) (hk : pubKeys ≠ [])
    (hc : env.CertificateFromPEM certPEM = .ok cert)
    (hch : env.CertificatesFromPEM chainPEM = .ok (issuer :: rest))
    (hs : env.ParseSCTsFromCertificate certPEM = .ok [])
    (hraw : rawSCT.length = 0) :
    (VerifySCT env ctx certPEM chainPEM rawSCT).res = .error (.new "no SCT found") ∧
      verifyCalls (VerifySCT env ctx certPEM chainPEM rawSCT).trace = [] := by
  constructor
  · rw [VerifySCT_res_of_fetch hreg, checkSCT_no_evidence hk hc hch hs hraw]
    rfl
  · have hfetch := fetchPubKeys_no_verify env ctx
    simp only [verifyCalls_append, List.append_eq_nil] at hfetch
    simp [VerifySCT, Run.andThen, hreg, checkSCT_no_evidence hk hc hch hs hraw,
      verifyCalls_append, hfetch.1, hfetch.2, Run.fail]

/-- C3 at the sample key file, with a certificate that carries no SCT. -/
theorem VerifySCT_no_SCT_found_witness :
    (VerifySCT (Sample.keyFile []) .background [1] [2] []).res = .error (.new "no SCT found") ∧
      verifyCalls (VerifySCT (Sample.keyFile []) .background [1] [2] []).trace = [] :=
  VerifySCT_no_SCT_found (Sample.keyFile []) .background [1] [2] []
    [(Sample.keyID 1, ⟨Sample.logKey, .Active⟩)] Sample.leaf Sample.issuer []
    rfl (by decide) rfl rfl rfl rfl

/-- C4: embedded SCTs take priority and the detached payload is ignored.
When the certificate carries a non-empty list of SCTs, `VerifySCT` gives the
same run (calls made and result) for any two detached payloads; so the call
succeeds when the embedded SCTs are all matched and verify, whatever the
detached payload is. -/
theorem VerifySCT_detached_ignored (env : Env) (ctx : Context)
    (certPEM chainPEM : Bytes) (scts : List SignedCertificateTimestamp)
    (hs : env.ParseSCTsFromCertificate certPEM = .ok scts) (hne : scts ≠ []) :
    (∀ rawSCT1 rawSCT2 : Bytes,
      VerifySCT env ctx certPEM chainPEM rawSCT1 = VerifySCT env ctx certPEM chainPEM rawSCT2) ∧
    (∀ (pubKeys : Registry) (cert issuer : Certificate) (rest : List Certificate),
      (fetchPubKeys env ctx).res = .ok pubKeys → pubKeys ≠ [] →
      env.CertificateFromPEM certPEM = .ok cert →
      env.CertificatesFromPEM chainPEM = .ok (issuer :: rest) →
      (∀ s ∈ scts, ∃ md, pubKeys.get s.LogID.KeyID = some md ∧
        env.ctutilVerifySCT md.pubKey [cert, issuer] s true = .ok ()) →
      ∀ rawSCT : Bytes, (VerifySCT env ctx certPEM chainPEM rawSCT).res = .ok ()) := by
  constructor
  · intro rawSCT1 rawSCT2
    unfold VerifySCT
    have hfun : (fun pubKeys => checkSCT env pubKeys certPEM chainPEM rawSCT1) =
        (fun pubKeys => checkSCT env pubKeys certPEM chainPEM rawSCT2) := by
      funext pubKeys
      exact checkSCT_detached_unread hs hne pubKeys chainPEM rawSCT1 rawSCT2
    simp only [Run.bind_eq, hfun]
  · intro pubKeys cert issuer rest hreg hk hc hch hall rawSCT
    rw [VerifySCT_res_of_fetch hreg, checkSCT_embedded hk hc hch hs hne]
    exact (embeddedLoop_ok_iff env pubKeys cert issuer scts).mpr hall

/-- C4 at the sample key file: the payload `[9, 9]` does not decode as JSON,
and the call with it is the call with the empty payload, and succeeds. -/
theorem VerifySCT_detached_ignored_witness :
    (Sample.keyFile [Sample.sct 1 [7]]).jsonUnmarshal [9, 9] = .error Sample.unavailable ∧
    VerifySCT (Sample.keyFile [Sample.sct 1 [7]]) .background [1] [2] [9, 9] =
      VerifySCT (Sample.keyFile [Sample.sct 1 [7]]) .background [1] [2] [] ∧
    (VerifySCT (Sample.keyFile [Sample.sct 1 [7]]) .background [1] [2] [9, 9]).res = .ok () :=
  ⟨rfl,
   (VerifySCT_detached_ignored (Sample.keyFile [Sample.sct 1 [7]]) .background [1] [2]
      [Sample.sct 1 [7]] rfl (by decide)).1 [9, 9] [],
   (VerifySCT_detached_ignored (Sample.keyFile [Sample.sct 1 [7]]) .background [1] [2]
      [Sample.sct 1 [7]] rfl (by decide)).2
      [(Sample.keyID 1, ⟨Sample.logKey, .Active⟩)] Sample.leaf Sample.issuer []
      rfl (by decide) rfl rfl
      (by
        intro s hmem
        simp only [List.mem_singleton] at hmem
        subst hmem
        exact ⟨⟨Sample.logKey, .Active⟩, rfl, rfl⟩)
      [9, 9]⟩

/-- The embedded loop stops at the first SCT that is unmatched: when every
SCT before it is matched and verifies, the loop returns the key-not-found
error. -/
theorem embeddedLoop_first_unmatched (env : Env) (pubKeys : Registry) (cert issuer : Certificate)
    (pre : List SignedCertificateTimestamp) (s : SignedCertificateTimestamp)
    (post : List SignedCertificateTimestamp)
    (hpre : ∀ p ∈ pre, ∃ md, pubKeys.get p.LogID.KeyID = some md ∧
      env.ctutilVerifySCT md.pubKey [cert, issuer] p true = .ok ())
    (hs : pubKeys.get s.LogID.KeyID = none) :
    (embeddedLoop env pubKeys cert issuer (pre ++ s :: post)).res =
      .error (.new "ctfe public key not found for embedded SCT") := by
  induction pre with
  | nil => simp [embeddedLoop, hs]
  | cons p pre ih =>
    obtain ⟨md, hget, hver⟩ := hpre p (List.mem_cons_self p pre)
    have ih' := ih (fun q hq => hpre q (List.mem_cons_of_mem p hq))
    by_cases hst : md.status = .Active <;>
      simp [embeddedLoop, hget, hver, Run.andThen, Run.wrapErr, Run.call, Run.emit,
        Except.mapError, hst, ih']

/-- The embedded loop stops at the first SCT that fails verification: when
every SCT before it is matched and verifies, the loop returns the wrapped
verification error. -/
theorem embeddedLoop_first_tampered (env : Env) (pubKeys : Registry) (cert issuer : Certificate)
    (pre : List SignedCertificateTimestamp) (s : SignedCertificateTimestamp)
    (post : List SignedCertificateTimestamp) (md : logIDMetadata) (e : Error)
    (hpre : ∀ p ∈ pre, ∃ md, pubKeys.get p.LogID.KeyID = some md ∧
      env.ctutilVerifySCT md.pubKey [cert, issuer] p true = .ok ())
    (hs : pubKeys.get s.LogID.KeyID = some md)
    (hv : env.ctutilVerifySCT md.pubKey [cert, issuer] s true = .error e) :
    (embeddedLoop env pubKeys cert issuer (pre ++ s :: post)).res =
      .error (.wrap e "error verifying embedded SCT") := by
  induction pre with
  | nil => simp [embeddedLoop, hs, hv, Run.andThen, Run.wrapErr, Run.call, Except.mapError]
  | cons p pre ih =>
    obtain ⟨md', hget, hver⟩ := hpre p (List.mem_cons_self p pre)
    have ih' := ih (fun q hq => hpre q (List.mem_cons_of_mem p hq))
    by_cases hst : md'.status = .Active <;>
      simp [embeddedLoop, hget, hver, Run.andThen, Run.wrapErr, Run.call, Run.emit,
        Except.mapError, hst, ih']

/-- The embedded loop returns nil, the key-not-found error, or a wrapped
verification error. -/
theorem embeddedLoop_res_cases (env : Env) (pubKeys : Registry) (cert issuer : Certificate)
    (scts : List SignedCertificateTimestamp) :
    (embeddedLoop env pubKeys cert issuer scts).res = .ok () ∨
    (embeddedLoop env pubKeys cert issuer scts).res =
      .error (.new "ctfe public key not found for embedded SCT") ∨
    ∃ cause, (embeddedLoop env pubKeys cert issuer scts).res =
      .error (.wrap cause "error verifying embedded SCT") := by
  induction scts with
  | nil => exact Or.inl rfl
  | cons s rest ih =>
    cases hget : pubKeys.get s.LogID.KeyID with
    | none => exact Or.inr (Or.inl (by simp [embeddedLoop, hget]))
    | some md =>
      cases hv : env.ctutilVerifySCT md.pubKey [cert, issuer] s true with
      | error e =>
        exact Or.inr (Or.inr ⟨e, by
          simp [embeddedLoop, hget, hv, Run.andThen, Run.wrapErr, Run.call, Except.mapError]⟩)
      | ok u =>
        have hstep : (embeddedLoop env pubKeys cert issuer (s :: rest)).res =
            (embeddedLoop env pubKeys cert issuer rest).res := by
          by_cases hst : md.status = .Active <;>
            simp [embeddedLoop, hget, hv, Run.andThen, Run.wrapErr, Run.call, Run.emit,
              Except.mapError, hst]
        rw [hstep]
        exact ih

/-- In detached mode with a decoded SCT, `checkSCT` is the final lookup and
signature check. -/
theorem checkSCT_detached {env : Env} {pubKeys : Registry} {certPEM chainPEM rawSCT : Bytes}
    {cert issuer : Certificate} {rest : List Certificate}
    {resp : AddChainResponse} {sct : SignedCertificateTimestamp}
    (hk : pubKeys ≠ [])
    (hc : env.CertificateFromPEM certPEM = .ok cert)
    (hch : env.CertificatesFromPEM chainPEM = .ok (issuer :: rest))
    (hs : env.ParseSCTsFromCertificate certPEM = .ok [])
    (hraw : rawSCT ≠ [])
    (hj : env.jsonUnmarshal rawSCT = .ok resp)
    (ht : env.ToSignedCertificateTimestamp resp = .ok sct) :
    checkSCT env pubKeys certPEM chainPEM rawSCT =
      (match pubKeys.get sct.LogID.KeyID with
        | none => Run.fail (Error.new "ctfe public key not found")
        | some md =>
          Run.andThen
            (Run.wrapErr
              (Run.call (.verifySCT md.pubKey [cert] sct false)
                (env.ctutilVerifySCT md.pubKey [cert] sct false))
              "error verifying SCT")
            (fun _ => Run.andThen
              (if md.status ≠ .Active then
                Run.emit (.stderr
                  "**Info** Successfully verified SCT using an expired verification key\n")
               else Run.ret ())
              (fun _ => Run.ret ()))) := by
  cases hget : pubKeys.get sct.LogID.KeyID with
  | none => simp [checkSCT, hk, hc, hch, hs, hraw, hj, ht, Except.mapError, hget]
  | some md =>
    by_cases hst : md.status = .Active <;>
      simp [checkSCT, hk, hc, hch, hs, hraw, hj, ht, Except.mapError, hget, hst]

/-- C2, as the code has it: the key-not-found error for an SCT whose log is
not in the map. When the map of log keys is built non-empty and the
certificate and a non-empty chain parse: in embedded mode an embedded SCT
whose log identifier is not in the map makes `VerifySCT` fail, with the
key-not-found error when every SCT before it in the list is matched and
verifies, and in any case with the key-not-found error or a wrapped
verification error; in detached mode (no embedded SCT, a non-empty payload
that decodes to an SCT) a log identifier that is not in the map makes
`VerifySCT` fail with the key-not-found error. -/
theorem VerifySCT_key_not_found (env : Env) (ctx : Context)
    (certPEM chainPEM rawSCT : Bytes) (pubKeys : Registry)
    (cert issuer : Certificate) (rest : List Certificate)
    (scts : List SignedCertificateTimestamp)
    (hreg : (fetchPubKeys env ctx).res = .ok pubKeys) (hk : pubKeys ≠ [])
    (hc : env.CertificateFromPEM certPEM = .ok cert)
    (hch : env.CertificatesFromPEM chainPEM = .ok (issuer :: rest))
    (hs : env.ParseSCTsFromCertificate certPEM = .ok scts) :
    (∀ pre s post, scts = pre ++ s :: post →
      (∀ p ∈ pre, ∃ md, pubKeys.get p.LogID.KeyID = some md ∧
        env.ctutilVerifySCT md.pubKey [cert, issuer] p true = .ok ()) →
      pubKeys.get s.LogID.KeyID = none →
      (VerifySCT env ctx certPEM chainPEM rawSCT).res =
        .error (.new "ctfe public key not found for embedded SCT")) ∧
    ((∃ s ∈ scts, pubKeys.get s.LogID.KeyID = none) →
      (VerifySCT env ctx certPEM chainPEM rawSCT).res =
        .error (.new "ctfe public key not found for embedded SCT") ∨
      ∃ cause, (VerifySCT env ctx certPEM chainPEM rawSCT).res =
        .error (.wrap cause "error verifying embedded SCT")) ∧
    (∀ resp sct, scts = [] → rawSCT ≠ [] →
      env.jsonUnmarshal rawSCT = .ok resp →
      env.ToSignedCertificateTimestamp resp = .ok sct →
      pubKeys.get sct.LogID.KeyID = none →
      (VerifySCT env ctx certPEM chainPEM rawSCT).res =
        .error (.new "ctfe public key not found")) := by
  refine ⟨?_, ?_, ?_⟩
  · intro pre s post hsplit hpre hnone
    have hne : scts ≠ [] := by
      rw [hsplit]
      simp
    rw [VerifySCT_res_of_fetch hreg, checkSCT_embedded hk hc hch hs hne, hsplit]
    exact embeddedLoop_first_unmatched env pubKeys cert issuer pre s post hpre hnone
  · rintro ⟨s, hmem, hnone⟩
    have hne : scts ≠ [] := List.ne_nil_of_mem hmem
    rw [VerifySCT_res_of_fetch hreg, checkSCT_embedded hk hc hch hs hne]
    rcases embeddedLoop_res_cases env pubKeys cert issuer scts with hok | hnf | hvf
    · exfalso
      obtain ⟨md, hget, _⟩ := (embeddedLoop_ok_iff env pubKeys cert issuer scts).mp hok s hmem
      rw [hget] at hnone
      cases hnone
    · exact Or.inl hnf
    · exact Or.inr hvf
  · intro resp sct hnil hraw hj ht hnone
    subst hnil
    rw [VerifySCT_res_of_fetch hreg, checkSCT_detached hk hc hch hs hraw hj ht, hnone]
    rfl

/-- C2 at the sample key file: an unmatched embedded SCT after a good one,
and an unmatched detached SCT. -/
theorem VerifySCT_key_not_found_witness :
    (VerifySCT (Sample.keyFile [Sample.sct 1 [7], Sample.sct 2 [7]])
      .background [1] [2] []).res =
      .error (.new "ctfe public key not found for embedded SCT") ∧
    (VerifySCT (Sample.keyFile []) .background [1] [2] [3, 2, 7]).res =
      .error (.new "ctfe public key not found") :=
  ⟨(VerifySCT_key_not_found (Sample.keyFile [Sample.sct 1 [7], Sample.sct 2 [7]])
      .background [1] [2] [] [(Sample.keyID 1, ⟨Sample.logKey, .Active⟩)]
      Sample.leaf Sample.issuer [] [Sample.sct 1 [7], Sample.sct 2 [7]]
      rfl (by decide) rfl rfl rfl).1 [Sample.sct 1 [7]] (Sample.sct 2 [7]) [] rfl
      (by
        intro p hmem
        simp only [List.mem_singleton] at hmem
        subst hmem
        exact ⟨⟨Sample.logKey, .Active⟩, rfl, rfl⟩)
      rfl,
   (VerifySCT_key_not_found (Sample.keyFile []) .background [1] [2] [3, 2, 7]
      [(Sample.keyID 1, ⟨Sample.logKey, .Active⟩)] Sample.leaf Sample.issuer [] []
      rfl (by decide) rfl rfl rfl).2.2
      ⟨Sample.keyID 2, 1000, "", [7]⟩ (Sample.sct 2 [7]) rfl (by decide) rfl rfl rfl⟩

/-- C2 as stated fails: at the sample key file the map of log keys holds the
one log `keyID 1`, the certificate and the chain parse, and the certificate
carries an SCT of log `keyID 1` with a bad signature followed by an SCT of
log `keyID 2`, which is not in the map; `VerifySCT` fails with the wrapped
verification error of the first SCT, not with a key-not-found error. -/
theorem VerifySCT_unmatched_after_tampered :
    (fetchPubKeys (Sample.keyFile [Sample.sct 1 [0], Sample.sct 2 [7]]) .background).res =
      .ok [(Sample.keyID 1, ⟨Sample.logKey, .Active⟩)] ∧
    (Sample.keyFile [Sample.sct 1 [0], Sample.sct 2 [7]]).CertificateFromPEM [1] =
      .ok Sample.leaf ∧
    (Sample.keyFile [Sample.sct 1 [0], Sample.sct 2 [7]]).CertificatesFromPEM [2] =
      .ok [Sample.issuer] ∧
    (Sample.keyFile [Sample.sct 1 [0], Sample.sct 2 [7]]).ParseSCTsFromCertificate [1] =
      .ok [Sample.sct 1 [0], Sample.sct 2 [7]] ∧
    Registry.get [(Sample.keyID 1, ⟨Sample.logKey, .Active⟩)]
      (Sample.sct 2 [7]).LogID.KeyID = none ∧
    (VerifySCT (Sample.keyFile [Sample.sct 1 [0], Sample.sct 2 [7]])
      .background [1] [2] []).res =
      .error (.wrap Sample.unavailable "error verifying embedded SCT") ∧
    (VerifySCT (Sample.keyFile [Sample.sct 1 [0], Sample.sct 2 [7]])
      .background [1] [2] []).res ≠
      .error (.new "ctfe public key not found for embedded SCT") ∧
    (VerifySCT (Sample.keyFile [Sample.sct 1 [0], Sample.sct 2 [7]])
      .background [1] [2] []).res ≠
      .error (.new "ctfe public key not found") := by
  refine ⟨rfl, rfl, rfl, rfl, rfl, rfl, ?_, ?_⟩ <;>
    · intro h
      have h' : (Except.error (Error.wrap Sample.unavailable "error verifying embedded SCT") :
          Except Error Unit) = .error (.new _) := h
      cases h'

/-! ## The status of a log key -/

/-- Two maps with the same keys and public keys give lookups with the same
public key. -/
theorem Registry.get_pubKey_congr {r1 r2 : Registry}
    (hsame : r1.map (fun e => (e.1, e.2.pubKey)) = r2.map (fun e => (e.1, e.2.pubKey)))
    (k : SHA256Hash) :
    (r1.get k).map (fun md => md.pubKey) = (r2.get k).map (fun md => md.pubKey) := by
  induction r1 generalizing r2 with
  | nil =>
    cases r2 with
    | nil => rfl
    | cons b r2 => simp at hsame
  | cons a r1 ih =>
    cases r2 with
    | nil => simp at hsame
    | cons b r2 =>
      obtain ⟨ka, va⟩ := a
      obtain ⟨kb, vb⟩ := b
      simp only [List.map_cons, List.cons.injEq, Prod.mk.injEq] at hsame
      obtain ⟨⟨hkey, hpub⟩, htail⟩ := hsame
      subst hkey
      by_cases hk : ka = k
      · simp [Registry.get, hk, hpub]
      · simp [Registry.get, hk, ih htail]

theorem embeddedLoop_res_congr (env : Env) {r1 r2 : Registry}
    (hsame : r1.map (fun e => (e.1, e.2.pubKey)) = r2.map (fun e => (e.1, e.2.pubKey)))
    (cert issuer : Certificate) (scts : List SignedCertificateTimestamp) :
    (embeddedLoop env r1 cert issuer scts).res = (embeddedLoop env r2 cert issuer scts).res := by
  induction scts with
  | nil => rfl
  | cons s rest ih =>
    have hget := Registry.get_pubKey_congr hsame s.LogID.KeyID
    cases h1 : r1.get s.LogID.KeyID with
    | none =>
      cases h2 : r2.get s.LogID.KeyID with
      | none => simp [embeddedLoop, h1, h2]
      | some md2 => simp [h1, h2] at hget
    | some md1 =>
      cases h2 : r2.get s.LogID.KeyID with
      | none => simp [h1, h2] at hget
      | some md2 =>
        simp only [h1, h2, Option.map_some', Option.some.injEq] at hget
        cases hv : env.ctutilVerifySCT md1.pubKey [cert, issuer] s true with
        | error e =>
          have hv2 := hv
          rw [hget] at hv2
          simp [embeddedLoop, h1, h2, hv, hv2, Run.andThen, Run.wrapErr, Run.call,
            Except.mapError]
        | ok u =>
          have hv2 := hv
          rw [hget] at hv2
          by_cases hs1 : md1.status = .Active <;> by_cases hs2 : md2.status = .Active <;>
            simp [embeddedLoop, h1, h2, hv, hv2, Run.andThen, Run.wrapErr, Run.call, Run.emit,
              Except.mapError, hs1, hs2, ih]

/-- The verdict of `checkSCT` does not read the status of a log key. -/
theorem checkSCT_res_congr (env : Env) {r1 r2 : Registry}
    (hsame : r1.map (fun e => (e.1, e.2.pubKey)) = r2.map (fun e => (e.1, e.2.pubKey)))
    (certPEM chainPEM rawSCT : Bytes) :
    (checkSCT env r1 certPEM chainPEM rawSCT).res =
      (checkSCT env r2 certPEM chainPEM rawSCT).res := by
  have hlen : r1.length = r2.length := by
    have := congrArg List.length hsame
    simpa using this
  by_cases hk : r1.length = 0
  · have hk2 : r2.length = 0 := hlen ▸ hk
    simp [checkSCT, hk, hk2]
  · have hk2 : ¬ r2.length = 0 := hlen ▸ hk
    have hne1 : r1 ≠ [] := fun h => hk (by simp [h])
    have hne2 : r2 ≠ [] := fun h => hk2 (by simp [h])
    cases hc : env.CertificateFromPEM certPEM with
    | error e => simp [checkSCT, hk, hk2, hc]
    | ok cert =>
      cases hch : env.CertificatesFromPEM chainPEM with
      | error e => simp [checkSCT, hk, hk2, hc, hch]
      | ok certChain =>
        cases certChain with
        | nil => simp [checkSCT, hk, hk2, hc, hch]
        | cons issuer rest =>
          cases hs : env.ParseSCTsFromCertificate certPEM with
          | error e => simp [checkSCT, hk, hk2, hc, hch, hs]
          | ok scts =>
            cases scts with
            | cons s more =>
              rw [checkSCT_embedded hne1 hc hch hs (by simp),
                checkSCT_embedded hne2 hc hch hs (by simp)]
              exact embeddedLoop_res_congr env hsame cert issuer (s :: more)
            | nil =>
              cases rawSCT with
              | nil => simp [checkSCT, hk, hk2, hc, hch, hs]
              | cons b raw =>
                cases hj : env.jsonUnmarshal (b :: raw) with
                | error e => simp [checkSCT, hk, hk2, hc, hch, hs, Except.mapError, hj]
                | ok resp =>
                  cases ht : env.ToSignedCertificateTimestamp resp with
                  | error e => simp [checkSCT, hk, hk2, hc, hch, hs, Except.mapError, hj, ht]
                  | ok sct =>
                    rw [checkSCT_detached hne1 hc hch hs (by simp) hj ht,
                      checkSCT_detached hne2 hc hch hs (by simp) hj ht]
                    have hget := Registry.get_pubKey_congr hsame sct.LogID.KeyID
                    cases h1 : r1.get sct.LogID.KeyID with
                    | none =>
                      cases h2 : r2.get sct.LogID.KeyID with
                      | none => rfl
                      | some md2 => simp [h1, h2] at hget
                    | some md1 =>
                      cases h2 : r2.get sct.LogID.KeyID with
                      | none => simp [h1, h2] at hget
                      | some md2 =>
                        simp only [h1, h2, Option.map_some', Option.some.injEq] at hget
                        cases hv : env.ctutilVerifySCT md1.pubKey [cert] sct false with
                        | error e =>
                          have hv2 := hv
                          rw [hget] at hv2
                          simp [hv, hv2, Run.andThen, Run.wrapErr, Run.call, Except.mapError]
                        | ok u =>
                          have hv2 := hv
                          rw [hget] at hv2
                          by_cases hs1 : md1.status = .Active <;>
                            by_cases hs2 : md2.status = .Active <;>
                            simp [hv, hv2, Run.andThen, Run.wrapErr, Run.call, Run.emit,
                              Except.mapError, hs1, hs2, Run.ret]

theorem stderrOf_append (xs ys : List Event) :
    stderrOf (xs ++ ys) = stderrOf xs ++ stderrOf ys := by
  induction xs with
  | nil => rfl
  | cons x xs ih => cases x <;> simp [stderrOf, ih]

/-- When every embedded SCT passes, the loop succeeds and writes one advisory
for each SCT whose matched key is not active, and nothing else. -/
theorem embeddedLoop_all_pass (env : Env) (pubKeys : Registry) (cert issuer : Certificate)
    (scts : List SignedCertificateTimestamp)
    (hall : ∀ s ∈ scts, ∃ md, pubKeys.get s.LogID.KeyID = some md ∧
      env.ctutilVerifySCT md.pubKey [cert, issuer] s true = .ok ()) :
    stderrOf (embeddedLoop env pubKeys cert issuer scts).trace =
      (scts.filter (fun s => (pubKeys.get s.LogID.KeyID).any
        (fun md => decide (md.status ≠ .Active)))).map (fun _ => embeddedAdvisory) := by
  induction scts with
  | nil => rfl
  | cons s rest ih =>
    obtain ⟨md, hget, hver⟩ := hall s (List.mem_cons_self s rest)
    have ih' := ih (fun q hq => hall q (List.mem_cons_of_mem s hq))
    by_cases hst : md.status = .Active
    · simp [embeddedLoop, hget, hver, Run.andThen, Run.wrapErr, Run.call, Run.emit,
        Except.mapError, hst, ih', stderrOf, Run.ret]
    · simp [embeddedLoop, hget, hver, Run.andThen, Run.wrapErr, Run.call, Run.emit,
        Except.mapError, hst, ih', stderrOf, Run.ret, embeddedAdvisory]

/-! ## Worlds that differ in the status of the TUF targets -/

theorem Registry.set_congr {r1 r2 : Registry}
    (hsame : r1.map (fun e => (e.1, e.2.pubKey)) = r2.map (fun e => (e.1, e.2.pubKey)))
    (k : SHA256Hash) (key : PublicKey) (s1 s2 : StatusKind) :
    (r1.set k ⟨key, s1⟩).map (fun e => (e.1, e.2.pubKey)) =
      (r2.set k ⟨key, s2⟩).map (fun e => (e.1, e.2.pubKey)) := by
  have hfilter : ∀ r : Registry,
      (r.filter (fun e => decide (e.1 ≠ k))).map (fun e => (e.1, e.2.pubKey)) =
        (r.map (fun e => (e.1, e.2.pubKey))).filter (fun e => decide (e.1 ≠ k)) := by
    intro r
    rw [List.filter_map]
    rfl
  simp only [Registry.set, List.map_cons, hfilter, hsame]

theorem ctfeTargets_env (env : Env) (n2 : Context → Except Error TUFClient)
    (targets : List TargetFile) (pubKeys : Registry) :
    ctfeTargets { env with NewFromEnv := n2 } targets pubKeys =
      ctfeTargets env targets pubKeys := by
  induction targets generalizing pubKeys with
  | nil => rfl
  | cons t targets ih =>
    simp only [ctfeTargets, ih]

theorem embeddedLoop_env (env : Env) (n2 : Context → Except Error TUFClient)
    (pubKeys : Registry) (cert issuer : Certificate) (scts : List SignedCertificateTimestamp) :
    embeddedLoop { env with NewFromEnv := n2 } pubKeys cert issuer scts =
      embeddedLoop env pubKeys cert issuer scts := by
  induction scts with
  | nil => rfl
  | cons s rest ih =>
    simp only [embeddedLoop, ih]

theorem getAlternatePublicKey_env (env : Env) (n2 : Context → Except Error TUFClient)
    (input : Bytes) :
    getAlternatePublicKey { env with NewFromEnv := n2 } input =
      getAlternatePublicKey env input := rfl

theorem checkSCT_env (env : Env) (n2 : Context → Except Error TUFClient)
    (pubKeys : Registry) (certPEM chainPEM rawSCT : Bytes) :
    checkSCT { env with NewFromEnv := n2 } pubKeys certPEM chainPEM rawSCT =
      checkSCT env pubKeys certPEM chainPEM rawSCT := by
  simp only [checkSCT, embeddedLoop_env]

/-- The loop over the targets on two lists of targets with the same bytes,
from maps with the same keys: the same error, or maps with the same keys. -/
theorem ctfeTargets_congr (env : Env) (t1 t2 : List TargetFile)
    (htargets : t1.map (fun t => t.Target) = t2.map (fun t => t.Target))
    (r1 r2 : Registry)
    (hsame : r1.map (fun e => (e.1, e.2.pubKey)) = r2.map (fun e => (e.1, e.2.pubKey))) :
    (∃ e, (ctfeTargets env t1 r1).res = .error e ∧ (ctfeTargets env t2 r2).res = .error e) ∨
    (∃ q1 q2, (ctfeTargets env t1 r1).res = .ok q1 ∧ (ctfeTargets env t2 r2).res = .ok q2 ∧
      q1.map (fun e => (e.1, e.2.pubKey)) = q2.map (fun e => (e.1, e.2.pubKey))) := by
  induction t1 generalizing t2 r1 r2 with
  | nil =>
    cases t2 with
    | nil => exact Or.inr ⟨r1, r2, rfl, rfl, hsame⟩
    | cons b t2 => simp at htargets
  | cons a t1 ih =>
    cases t2 with
    | nil => simp at htargets
    | cons b t2 =>
      simp only [List.map_cons, List.cons.injEq] at htargets
      obtain ⟨hab, htail⟩ := htargets
      simp only [ctfeTargets, Run.bind_eq, ← hab]
      cases hp : env.UnmarshalPEMToPublicKey a.Target with
      | error e => exact Or.inl ⟨e, rfl, rfl⟩
      | ok pub =>
        cases pub with
        | ecdsa key =>
          cases hid : env.GetCTLogID (.ecdsa key) with
          | error e =>
            exact Or.inl ⟨.wrap e "error getting CTFE public key hash", by
              simp [hid, Except.mapError], by simp [hid, Except.mapError]⟩
          | ok keyID =>
            simpa [hid, Except.mapError] using
              ih t2 htail _ _ (Registry.set_congr hsame keyID (.ecdsa key) a.Status b.Status)
        | rsa key => exact Or.inl ⟨_, rfl, rfl⟩
        | ed25519 key => exact Or.inl ⟨_, rfl, rfl⟩

/-- The map of log keys in two worlds that differ in the status of the TUF
targets: the same error, or maps with the same keys. -/
theorem fetchPubKeys_congr (env : Env) (n2 : Context → Except Error TUFClient) (ctx : Context)
    (hn : sameUpToStatus (env.NewFromEnv ctx) (n2 ctx)) :
    (∃ e, (fetchPubKeys { env with NewFromEnv := n2 } ctx).res = .error e ∧
      (fetchPubKeys env ctx).res = .error e) ∨
    (∃ q1 q2, (fetchPubKeys { env with NewFromEnv := n2 } ctx).res = .ok q1 ∧
      (fetchPubKeys env ctx).res = .ok q2 ∧
      q1.map (fun e => (e.1, e.2.pubKey)) = q2.map (fun e => (e.1, e.2.pubKey))) := by
  by_cases hroot : env.Getenv altCTLogPublicKeyLocation = ""
  · cases h1 : env.NewFromEnv ctx with
    | error e1 =>
      cases h2 : n2 ctx with
      | error e2 =>
        rw [h1, h2] at hn
        have he : e1 = e2 := hn
        subst he
        exact Or.inl ⟨e1, by simp [fetchPubKeys, Run.andThen, Run.call, hroot, h2],
          by simp [fetchPubKeys, Run.andThen, Run.call, hroot, h1]⟩
      | ok c2 =>
        rw [h1, h2] at hn
        exact hn.elim
    | ok c1 =>
      cases h2 : n2 ctx with
      | error e2 =>
        rw [h1, h2] at hn
        exact hn.elim
      | ok c2 =>
        rw [h1, h2] at hn
        have hq := hn .CTFE [ctPublicKeyStr]
        cases g1 : c1.GetTargetsByMeta .CTFE [ctPublicKeyStr] with
        | error e1 =>
          cases g2 : c2.GetTargetsByMeta .CTFE [ctPublicKeyStr] with
          | error e2 =>
            rw [g1, g2] at hq
            have he : e1 = e2 := hq
            subst he
            exact Or.inl ⟨e1,
              by simp [fetchPubKeys, Run.andThen, Run.call, Run.defer, hroot, h2, g2],
              by simp [fetchPubKeys, Run.andThen, Run.call, Run.defer, hroot, h1, g1]⟩
          | ok t2 =>
            rw [g1, g2] at hq
            exact hq.elim
        | ok t1 =>
          cases g2 : c2.GetTargetsByMeta .CTFE [ctPublicKeyStr] with
          | error e2 =>
            rw [g1, g2] at hq
            exact hq.elim
          | ok t2 =>
            rw [g1, g2] at hq
            have hq' : t2.map (fun t => t.Target) = t1.map (fun t => t.Target) := hq.symm
            have hres2 : (fetchPubKeys { env with NewFromEnv := n2 } ctx).res =
                (ctfeTargets env t2 []).res := by
              simp [fetchPubKeys, Run.andThen, Run.call, Run.defer, hroot, h2, g2,
                ctfeTargets_env]
            have hres1 : (fetchPubKeys env ctx).res = (ctfeTargets env t1 []).res := by
              simp [fetchPubKeys, Run.andThen, Run.call, Run.defer, hroot, h1, g1]
            rw [hres1, hres2]
            exact ctfeTargets_congr env t2 t1 hq' [] [] rfl
  · have heq : (fetchPubKeys { env with NewFromEnv := n2 } ctx) = fetchPubKeys env ctx := by
      simp [fetchPubKeys, hroot, getAlternatePublicKey_env, Run.andThen_call_ok]
    rw [heq]
    cases hres : (fetchPubKeys env ctx).res with
    | error e => exact Or.inl ⟨e, rfl, rfl⟩
    | ok q => exact Or.inr ⟨q, q, rfl, rfl, rfl⟩

/-- The verdict of `VerifySCT` is the same in two worlds that differ in the
status of the TUF targets. -/
theorem VerifySCT_res_congr (env : Env) (n2 : Context → Except Error TUFClient) (ctx : Context)
    (hn : sameUpToStatus (env.NewFromEnv ctx) (n2 ctx)) (certPEM chainPEM rawSCT : Bytes) :
    (VerifySCT { env with NewFromEnv := n2 } ctx certPEM chainPEM rawSCT).res =
      (VerifySCT env ctx certPEM chainPEM rawSCT).res := by
  rcases fetchPubKeys_congr env n2 ctx hn with ⟨e, h2, h1⟩ | ⟨q2, q1, h2, h1, hsame⟩
  · simp [VerifySCT, Run.andThen_res_error h1, Run.andThen_res_error h2]
  · rw [VerifySCT_res_of_fetch h1, VerifySCT_res_of_fetch h2, checkSCT_env]
    exact checkSCT_res_congr env hsame certPEM chainPEM rawSCT

theorem Registry.ne_nil_of_get {r : Registry} {k : SHA256Hash} {md : logIDMetadata}
    (h : r.get k = some md) : r ≠ [] := by
  intro hnil
  subst hnil
  cases h

/-- C5: the status of a log key never changes the verdict of `VerifySCT`.
For two maps of log keys with the same log identifiers and public keys, that
differ only in the status of their entries, the part of `VerifySCT` that
uses the map returns an error with one iff it does with the other (the same
error, in fact), and so does `VerifySCT` in two worlds whose TUF targets
differ only in status. So with an expired key a tampered SCT still gives the
wrapped verification error, and a good SCT still gives success, with the
advisory and nothing else written to standard error. -/
theorem VerifySCT_status_irrelevant (env : Env) (r1 r2 : Registry)
    (certPEM chainPEM rawSCT : Bytes)
    (hsame : r1.map (fun e => (e.1, e.2.pubKey)) = r2.map (fun e => (e.1, e.2.pubKey))) :
    ((∃ e, (checkSCT env r1 certPEM chainPEM rawSCT).res = .error e) ↔
      (∃ e, (checkSCT env r2 certPEM chainPEM rawSCT).res = .error e)) ∧
    (checkSCT env r1 certPEM chainPEM rawSCT).res =
      (checkSCT env r2 certPEM chainPEM rawSCT).res ∧
    (∀ ctx n2, sameUpToStatus (env.NewFromEnv ctx) (n2 ctx) →
      (VerifySCT { env with NewFromEnv := n2 } ctx certPEM chainPEM rawSCT).res =
        (VerifySCT env ctx certPEM chainPEM rawSCT).res) ∧
    (∀ cert issuer rest resp sct key,
      env.CertificateFromPEM certPEM = .ok cert →
      env.CertificatesFromPEM chainPEM = .ok (issuer :: rest) →
      env.ParseSCTsFromCertificate certPEM = .ok [] →
      rawSCT ≠ [] →
      env.jsonUnmarshal rawSCT = .ok resp →
      env.ToSignedCertificateTimestamp resp = .ok sct →
      r1.get sct.LogID.KeyID = some ⟨key, .Expired⟩ →
      (∀ e, env.ctutilVerifySCT key [cert] sct false = .error e →
        (checkSCT env r1 certPEM chainPEM rawSCT).res =
          .error (.wrap e "error verifying SCT")) ∧
      (env.ctutilVerifySCT key [cert] sct false = .ok () →
        (checkSCT env r1 certPEM chainPEM rawSCT).res = .ok () ∧
        stderrOf (checkSCT env r1 certPEM chainPEM rawSCT).trace = [detachedAdvisory])) ∧
    (∀ cert issuer rest scts,
      env.CertificateFromPEM certPEM = .ok cert →
      env.CertificatesFromPEM chainPEM = .ok (issuer :: rest) →
      env.ParseSCTsFromCertificate certPEM = .ok scts →
      (∀ pre s post key e, scts = pre ++ s :: post →
        (∀ p ∈ pre, ∃ md, r1.get p.LogID.KeyID = some md ∧
          env.ctutilVerifySCT md.pubKey [cert, issuer] p true = .ok ()) →
        r1.get s.LogID.KeyID = some ⟨key, .Expired⟩ →
        env.ctutilVerifySCT key [cert, issuer] s true = .error e →
        (checkSCT env r1 certPEM chainPEM rawSCT).res =
          .error (.wrap e "error verifying embedded SCT")) ∧
      (scts ≠ [] →
        (∀ s ∈ scts, ∃ md, r1.get s.LogID.KeyID = some md ∧
          env.ctutilVerifySCT md.pubKey [cert, issuer] s true = .ok ()) →
        (checkSCT env r1 certPEM chainPEM rawSCT).res = .ok () ∧
        stderrOf (checkSCT env r1 certPEM chainPEM rawSCT).trace =
          (scts.filter (fun s => (r1.get s.LogID.KeyID).any
            (fun md => decide (md.status ≠ .Active)))).map (fun _ => embeddedAdvisory))) := by
  have hres := checkSCT_res_congr env hsame certPEM chainPEM rawSCT
  refine ⟨by rw [hres], hres, ?_, ?_, ?_⟩
  · intro ctx n2 hn
    exact VerifySCT_res_congr env n2 ctx hn certPEM chainPEM rawSCT
  · intro cert issuer rest resp sct key hc hch hs hraw hj ht hget
    have hk := Registry.ne_nil_of_get hget
    rw [checkSCT_detached hk hc hch hs hraw hj ht, hget]
    constructor
    · intro e hv
      simp [hv, Run.andThen, Run.wrapErr, Run.call, Except.mapError]
    · intro hv
      simp [hv, Run.andThen, Run.wrapErr, Run.call, Run.emit, Run.ret, Except.mapError,
        stderrOf, detachedAdvisory]
  · intro cert issuer rest scts hc hch hs
    constructor
    · intro pre s post key e hsplit hpre hget hv
      have hk := Registry.ne_nil_of_get hget
      have hne : scts ≠ [] := by
        rw [hsplit]
        simp
      rw [checkSCT_embedded hk hc hch hs hne, hsplit]
      exact embeddedLoop_first_tampered env r1 cert issuer pre s post ⟨key, .Expired⟩ e
        hpre hget hv
    · intro hne hall
      obtain ⟨s, hmem⟩ := List.exists_mem_of_ne_nil scts hne
      obtain ⟨md, hget, _⟩ := hall s hmem
      have hk := Registry.ne_nil_of_get hget
      rw [checkSCT_embedded hk hc hch hs hne]
      exact ⟨(embeddedLoop_ok_iff env r1 cert issuer scts).mpr hall,
        embeddedLoop_all_pass env r1 cert issuer scts hall⟩

/-- C5 at the sample log key, once expired and once active: a tampered
detached SCT is refused with the verification error, a good one is accepted
with the advisory, an embedded one likewise, and the verdict is the one under
the active key. -/
theorem VerifySCT_status_irrelevant_witness :
    (checkSCT (Sample.keyFile []) [(Sample.keyID 1, ⟨Sample.logKey, .Expired⟩)]
      [1] [2] [3, 1, 0]).res = .error (.wrap Sample.unavailable "error verifying SCT") ∧
    (checkSCT (Sample.keyFile []) [(Sample.keyID 1, ⟨Sample.logKey, .Active⟩)]
      [1] [2] [3, 1, 0]).res = .error (.wrap Sample.unavailable "error verifying SCT") ∧
    ((checkSCT (Sample.keyFile []) [(Sample.keyID 1, ⟨Sample.logKey, .Expired⟩)]
      [1] [2] [3, 1, 7]).res = .ok () ∧
      stderrOf (checkSCT (Sample.keyFile []) [(Sample.keyID 1, ⟨Sample.logKey, .Expired⟩)]
        [1] [2] [3, 1, 7]).trace = [detachedAdvisory]) ∧
    ((checkSCT (Sample.keyFile [Sample.sct 1 [7]])
      [(Sample.keyID 1, ⟨Sample.logKey, .Expired⟩)] [1] [2] []).res = .ok () ∧
      stderrOf (checkSCT (Sample.keyFile [Sample.sct 1 [7]])
        [(Sample.keyID 1, ⟨Sample.logKey, .Expired⟩)] [1] [2] []).trace = [embeddedAdvisory]) ∧
    (checkSCT (Sample.keyFile [Sample.sct 1 [0]])
      [(Sample.keyID 1, ⟨Sample.logKey, .Expired⟩)] [1] [2] []).res =
      .error (.wrap Sample.unavailable "error verifying embedded SCT") ∧
    (VerifySCT { Sample.keyTUF .Active [] with NewFromEnv := (Sample.keyTUF .Expired []).NewFromEnv }
      .background [1] [2] [3, 1, 7]).res =
      (VerifySCT (Sample.keyTUF .Active []) .background [1] [2] [3, 1, 7]).res :=
  ⟨((VerifySCT_status_irrelevant (Sample.keyFile [])
      [(Sample.keyID 1, ⟨Sample.logKey, .Expired⟩)] [(Sample.keyID 1, ⟨Sample.logKey, .Active⟩)]
      [1] [2] [3, 1, 0] rfl).2.2.2.1 Sample.leaf Sample.issuer []
      ⟨Sample.keyID 1, 1000, "", [0]⟩ (Sample.sct 1 [0]) Sample.logKey
      rfl rfl rfl (by decide) rfl rfl rfl).1 Sample.unavailable rfl,
   (VerifySCT_status_irrelevant (Sample.keyFile [])
      [(Sample.keyID 1, ⟨Sample.logKey, .Expired⟩)] [(Sample.keyID 1, ⟨Sample.logKey, .Active⟩)]
      [1] [2] [3, 1, 0] rfl).2.1 ▸
    ((VerifySCT_status_irrelevant (Sample.keyFile [])
      [(Sample.keyID 1, ⟨Sample.logKey, .Expired⟩)] [(Sample.keyID 1, ⟨Sample.logKey, .Active⟩)]
      [1] [2] [3, 1, 0] rfl).2.2.2.1 Sample.leaf Sample.issuer []
      ⟨Sample.keyID 1, 1000, "", [0]⟩ (Sample.sct 1 [0]) Sample.logKey
      rfl rfl rfl (by decide) rfl rfl rfl).1 Sample.unavailable rfl,
   ((VerifySCT_status_irrelevant (Sample.keyFile [])
      [(Sample.keyID 1, ⟨Sample.logKey, .Expired⟩)] [(Sample.keyID 1, ⟨Sample.logKey, .Active⟩)]
      [1] [2] [3, 1, 7] rfl).2.2.2.1 Sample.leaf Sample.issuer []
      ⟨Sample.keyID 1, 1000, "", [7]⟩ (Sample.sct 1 [7]) Sample.logKey
      rfl rfl rfl (by decide) rfl rfl rfl).2 rfl,
   ((VerifySCT_status_irrelevant (Sample.keyFile [Sample.sct 1 [7]])
      [(Sample.keyID 1, ⟨Sample.logKey, .Expired⟩)] [(Sample.keyID 1, ⟨Sample.logKey, .Active⟩)]
      [1] [2] [] rfl).2.2.2.2 Sample.leaf Sample.issuer [] [Sample.sct 1 [7]]
      rfl rfl rfl).2 (by decide)
      (by
        intro s hmem
        simp only [List.mem_singleton] at hmem
        subst hmem
        exact ⟨⟨Sample.logKey, .Expired⟩, rfl, rfl⟩),
   ((VerifySCT_status_irrelevant (Sample.keyFile [Sample.sct 1 [0]])
      [(Sample.keyID 1, ⟨Sample.logKey, .Expired⟩)] [(Sample.keyID 1, ⟨Sample.logKey, .Active⟩)]
      [1] [2] [] rfl).2.2.2.2 Sample.leaf Sample.issuer [] [Sample.sct 1 [0]]
      rfl rfl rfl).1 [] (Sample.sct 1 [0]) [] Sample.logKey Sample.unavailable rfl
      (by
        intro p hmem
        cases hmem)
      rfl rfl,
   (VerifySCT_status_irrelevant (Sample.keyTUF .Active [])
      [(Sample.keyID 1, ⟨Sample.logKey, .Expired⟩)] [(Sample.keyID 1, ⟨Sample.logKey, .Active⟩)]
      [1] [2] [3, 1, 7] rfl).2.2.1 .background (Sample.keyTUF .Expired []).NewFromEnv
      (by
        intro usage names
        cases usage <;> simp [Sample.keyTUF])⟩

/-! ## The trust-root build -/

theorem CertPool.mem_AddCert (s : CertPool) (x c : Certificate) :
    c ∈ CertPool.AddCert s x ↔ c ∈ s ∨ c = x := by
  unfold CertPool.AddCert
  by_cases hx : x ∈ s
  · simp only [hx, if_true]
    constructor
    · exact Or.inl
    · rintro (h | h)
      · exact h
      · exact h ▸ hx
  · simp [hx]

theorem CertPool.mem_AppendCertsFromPEM (env : Env) (s : CertPool) (pemCerts : Bytes)
    (c : Certificate) :
    c ∈ CertPool.AppendCertsFromPEM env s pemCerts ↔ c ∈ s ∨ c ∈ env.CertsOfPEM pemCerts := by
  unfold CertPool.AppendCertsFromPEM
  generalize env.CertsOfPEM pemCerts = l
  induction l generalizing s with
  | nil => simp
  | cons x l ih =>
    simp only [List.foldl_cons, ih, CertPool.mem_AddCert, List.mem_cons]
    tauto

/-- The classifying loop: what the two pools hold afterwards. -/
theorem addCerts_mem (certs : List Certificate) (pools : CertPool × CertPool) (c : Certificate) :
    (c ∈ (addCerts certs pools).1 ↔
      c ∈ pools.1 ∨ (c ∈ certs ∧ c.RawSubject = c.RawIssuer)) ∧
    (c ∈ (addCerts certs pools).2 ↔
      c ∈ pools.2 ∨ (c ∈ certs ∧ c.RawSubject ≠ c.RawIssuer)) := by
  induction certs generalizing pools with
  | nil => simp [addCerts]
  | cons x certs ih =>
    obtain ⟨rootPool, intermediatePool⟩ := pools
    by_cases hx : x.RawSubject = x.RawIssuer
    · simp only [addCerts, hx, if_true, ih, CertPool.mem_AddCert, List.mem_cons]
      constructor
      · constructor
        · rintro ((h | h) | h)
          · exact Or.inl h
          · exact Or.inr ⟨Or.inl h, h ▸ hx⟩
          · exact Or.inr ⟨Or.inr h.1, h.2⟩
        · rintro (h | ⟨h | h, hs⟩)
          · exact Or.inl (Or.inl h)
          · exact Or.inl (Or.inr h)
          · exact Or.inr ⟨h, hs⟩
      · constructor
        · rintro (h | h)
          · exact Or.inl h
          · exact Or.inr ⟨Or.inr h.1, h.2⟩
        · rintro (h | ⟨h | h, hs⟩)
          · exact Or.inl h
          · exact absurd (h ▸ hx) hs
          · exact Or.inr ⟨h, hs⟩
    · simp only [addCerts, hx, if_false, ih, CertPool.mem_AddCert, List.mem_cons]
      constructor
      · constructor
        · rintro (h | h)
          · exact Or.inl h
          · exact Or.inr ⟨Or.inr h.1, h.2⟩
        · rintro (h | ⟨h | h, hs⟩)
          · exact Or.inl h
          · exact absurd (h ▸ hs) hx
          · exact Or.inr ⟨h, hs⟩
      · constructor
        · rintro ((h | h) | h)
          · exact Or.inl h
          · exact Or.inr ⟨Or.inl h, h ▸ hx⟩
          · exact Or.inr ⟨Or.inr h.1, h.2⟩
        · rintro (h | ⟨h | h, hs⟩)
          · exact Or.inl (Or.inl h)
          · exact Or.inl (Or.inr h)
          · exact Or.inr ⟨h, hs⟩

/-- On the local path `initRoots` returns the pools of the classifying loop
over the certificates of the file. -/
theorem initRoots_local {env : Env} {raw : Bytes} {certs : List Certificate}
    (hset : env.Getenv altRoot ≠ "")
    (hread : env.ReadFile (env.Getenv altRoot) = .ok raw)
    (hparse : env.UnmarshalCertificatesFromPEM raw = .ok certs) :
    initRoots env =
      ⟨[.getenv altRoot, .readFile (env.Getenv altRoot)], [], .ok (addCerts certs ([], []))⟩ := by
  simp [initRoots, Run.func, Run.andThen, Run.call, Run.wrapErr, Run.lift, Run.ret, hset, hread,
    hparse, Except.mapError]

/-- C6: the local root file. When `SIGSTORE_ROOT_FILE` is set and the file
reads and parses, `initRoots` succeeds; the root pool holds exactly the
certificates of the file whose `RawSubject` equals `RawIssuer`, the
intermediate pool holds exactly the other certificates of the file, each
certificate of the file is in exactly one pool, and nothing decoded from the
hardcoded intermediate is added. A file with `A` (self-signed) and `B` (not
self-signed) gives the root pool `[A]` and the intermediate pool `[B]`; TUF
is not asked. -/
theorem initRoots_local_classifies (env : Env) (raw : Bytes) (certs : List Certificate)
    (hset : env.Getenv altRoot ≠ "")
    (hread : env.ReadFile (env.Getenv altRoot) = .ok raw)
    (hparse : env.UnmarshalCertificatesFromPEM raw = .ok certs) :
    ∃ rootPool intermediatePool,
      (initRoots env).res = .ok (rootPool, intermediatePool) ∧
      (initRoots env).trace = [.getenv altRoot, .readFile (env.Getenv altRoot)] ∧
      (∀ c, c ∈ rootPool ↔ c ∈ certs ∧ c.RawSubject = c.RawIssuer) ∧
      (∀ c, c ∈ intermediatePool ↔ c ∈ certs ∧ c.RawSubject ≠ c.RawIssuer) ∧
      (∀ c ∈ certs, (c ∈ rootPool ∧ c ∉ intermediatePool) ∨
        (c ∉ rootPool ∧ c ∈ intermediatePool)) ∧
      (∀ c ∈ env.CertsOfPEM (bytesOf fulcioIntermediateV1), c ∉ certs →
        c ∉ intermediatePool ∧ c ∉ rootPool) ∧
      (∀ A B, certs = [A, B] → A.RawSubject = A.RawIssuer → B.RawSubject ≠ B.RawIssuer →
        rootPool = [A] ∧ intermediatePool = [B]) := by
  refine ⟨(addCerts certs ([], [])).1, (addCerts certs ([], [])).2, ?_, ?_, ?_, ?_, ?_, ?_, ?_⟩
  · rw [initRoots_local hset hread hparse]
  · rw [initRoots_local hset hread hparse]
  · intro c
    simp [(addCerts_mem certs ([], []) c).1]
  · intro c
    simp [(addCerts_mem certs ([], []) c).2]
  · intro c hc
    rw [(addCerts_mem certs ([], []) c).1, (addCerts_mem certs ([], []) c).2]
    by_cases hs : c.RawSubject = c.RawIssuer
    · exact Or.inl ⟨Or.inr ⟨hc, hs⟩, by simp [hs]⟩
    · exact Or.inr ⟨by simp [hs], Or.inr ⟨hc, hs⟩⟩
  · intro c _ hnot
    rw [(addCerts_mem certs ([], []) c).1, (addCerts_mem certs ([], []) c).2]
    simp [hnot]
  · intro A B hAB hA hB
    subst hAB
    simp [addCerts, hA, hB, CertPool.AddCert]

/-- C6 at the sample root file, which holds `A` and `B`: the pools are
`[A]` and `[B]`, and the decoded hardcoded intermediate is in neither. -/
theorem initRoots_local_classifies_witness :
    (initRoots Sample.rootFile).res = .ok ([Sample.certA], [Sample.certB]) ∧
    Sample.certV1 ∈ Sample.rootFile.CertsOfPEM (bytesOf fulcioIntermediateV1) ∧
    Sample.certV1 ∉ [Sample.certB] := by
  obtain ⟨rootPool, intermediatePool, hres, -, -, -, -, -, hAB⟩ :=
    initRoots_local_classifies Sample.rootFile [9] [Sample.certA, Sample.certB]
      (by decide) rfl rfl
  obtain ⟨hr, hi⟩ := hAB Sample.certA Sample.certB rfl rfl (by decide)
  subst hr
  subst hi
  exact ⟨hres, List.mem_singleton.mpr rfl, by decide⟩

theorem addTargets_silent (env : Env) (targets : List TargetFile) (pools : CertPool × CertPool) :
    (addTargets env targets pools).trace = [] ∧ (addTargets env targets pools).deferred = [] := by
  induction targets generalizing pools with
  | nil => exact ⟨rfl, rfl⟩
  | cons t targets ih =>
    simp only [addTargets, Run.bind_eq, Run.wrapErr_lift]
    cases hp : env.UnmarshalCertificatesFromPEM t.Target with
    | error e => simp [Except.mapError, Run.fail]
    | ok certs => simpa [Except.mapError] using ih _

/-- The loop over the targets: when it succeeds, every target parsed, and the
pools gained exactly the certificates of the targets, classified. -/
theorem addTargets_ok (env : Env) (targets : List TargetFile) (pools q : CertPool × CertPool)
    (h : (addTargets env targets pools).res = .ok q) :
    (∀ t ∈ targets, ∃ certs, env.UnmarshalCertificatesFromPEM t.Target = .ok certs) ∧
    ∀ c,
      (c ∈ q.1 ↔ c ∈ pools.1 ∨ ∃ t ∈ targets, ∃ certs,
        env.UnmarshalCertificatesFromPEM t.Target = .ok certs ∧ c ∈ certs ∧
          c.RawSubject = c.RawIssuer) ∧
      (c ∈ q.2 ↔ c ∈ pools.2 ∨ ∃ t ∈ targets, ∃ certs,
        env.UnmarshalCertificatesFromPEM t.Target = .ok certs ∧ c ∈ certs ∧
          c.RawSubject ≠ c.RawIssuer) := by
  induction targets generalizing pools with
  | nil =>
    simp only [addTargets, Run.pure_eq, Run.ret_res, Except.ok.injEq] at h
    subst h
    simp
  | cons t targets ih =>
    simp only [addTargets, Run.bind_eq, Run.wrapErr_lift] at h
    cases hp : env.UnmarshalCertificatesFromPEM t.Target with
    | error e => simp [hp, Except.mapError] at h
    | ok certs =>
      simp only [hp, Except.mapError, Run.andThen_lift_ok] at h
      obtain ⟨hall, hmem⟩ := ih _ h
      constructor
      · intro t' ht'
        rcases List.mem_cons.mp ht' with heq | htail
        · exact ⟨certs, heq ▸ hp⟩
        · exact hall t' htail
      · intro c
        have h1 := (hmem c).1
        have h2 := (hmem c).2
        rw [(addCerts_mem certs pools c).1] at h1
        rw [(addCerts_mem certs pools c).2] at h2
        constructor
        · rw [h1]
          constructor
          · rintro ((h | ⟨hc, hs⟩) | ⟨t', ht', cs, hcs, hc, hs⟩)
            · exact Or.inl h
            · exact Or.inr ⟨t, List.mem_cons_self t targets, certs, hp, hc, hs⟩
            · exact Or.inr ⟨t', List.mem_cons_of_mem t ht', cs, hcs, hc, hs⟩
          · rintro (h | ⟨t', ht', cs, hcs, hc, hs⟩)
            · exact Or.inl (Or.inl h)
            · rcases List.mem_cons.mp ht' with heq | htail
              · subst heq
                rw [hp] at hcs
                cases hcs
                exact Or.inl (Or.inr ⟨hc, hs⟩)
              · exact Or.inr ⟨t', htail, cs, hcs, hc, hs⟩
        · rw [h2]
          constructor
          · rintro ((h | ⟨hc, hs⟩) | ⟨t', ht', cs, hcs, hc, hs⟩)
            · exact Or.inl h
            · exact Or.inr ⟨t, List.mem_cons_self t targets, certs, hp, hc, hs⟩
            · exact Or.inr ⟨t', List.mem_cons_of_mem t ht', cs, hcs, hc, hs⟩
          · rintro (h | ⟨t', ht', cs, hcs, hc, hs⟩)
            · exact Or.inl (Or.inl h)
            · rcases List.mem_cons.mp ht' with heq | htail
              · subst heq
                rw [hp] at hcs
                cases hcs
                exact Or.inl (Or.inr ⟨hc, hs⟩)
              · exact Or.inr ⟨t', htail, cs, hcs, hc, hs⟩

theorem addTargets_succeeds (env : Env) (targets : List TargetFile) (pools : CertPool × CertPool)
    (hall : ∀ t ∈ targets, ∃ certs, env.UnmarshalCertificatesFromPEM t.Target = .ok certs) :
    ∃ q, (addTargets env targets pools).res = .ok q := by
  induction targets generalizing pools with
  | nil => exact ⟨pools, rfl⟩
  | cons t targets ih =>
    obtain ⟨certs, hp⟩ := hall t (List.mem_cons_self t targets)
    simp only [addTargets, Run.bind_eq, Run.wrapErr_lift, hp, Except.mapError,
      Run.andThen_lift_ok]
    exact ih _ (fun t' ht' => hall t' (List.mem_cons_of_mem t ht'))

/-- On the remote path, with a client and its targets, `initRoots` returns
the error for no target, or the pools of the loop over the targets with the
hardcoded intermediate appended. -/
theorem initRoots_remote_res {env : Env} {client : TUFClient} {targets : List TargetFile}
    (hunset : env.Getenv altRoot = "")
    (hnew : env.NewFromEnv .background = .ok client)
    (htg : client.GetTargetsByMeta .Fulcio [fulcioTargetStr, fulcioV1TargetStr] = .ok targets) :
    (initRoots env).res =
      if targets.length = 0 then .error (.new "none of the Fulcio roots have been found")
      else
        match (addTargets env targets ([], [])).res with
        | .error e => .error e
        | .ok pools => .ok (pools.1,
            CertPool.AppendCertsFromPEM env pools.2 (bytesOf fulcioIntermediateV1)) := by
  cases targets with
  | nil =>
    simp [initRoots, Run.andThen, Run.call, Run.wrapErr, Run.newErr, Run.defer, hunset, hnew,
      htg, Except.mapError]
  | cons t ts =>
    cases hadd : (addTargets env (t :: ts) ([], [])).res with
    | error e =>
      simp [initRoots, Run.andThen, Run.call, Run.wrapErr, Run.newErr, Run.defer, hunset, hnew,
        htg, Except.mapError, hadd]
    | ok pools =>
      simp [initRoots, Run.andThen, Run.call, Run.wrapErr, Run.newErr, Run.defer, hunset, hnew,
        htg, Except.mapError, hadd, Run.ret]

/-- C7: the remote build. With `SIGSTORE_ROOT_FILE` unset, every successful
`initRoots` build went through a TUF client that resolved at least one
target, has in the intermediate pool every certificate decoded from the
hardcoded intermediate together with every fetched certificate whose
`RawSubject` differs from its `RawIssuer` (and nothing else), and has in the
root pool exactly the fetched certificates whose `RawSubject` equals their
`RawIssuer`; the build fails when the query resolves no target, and succeeds
when it resolves at least one target and all of them parse. -/
theorem initRoots_remote_build (env : Env) (hunset : env.Getenv altRoot = "") :
    (∀ rootPool intermediatePool,
      (initRoots env).res = .ok (rootPool, intermediatePool) →
      ∃ client targets,
        env.NewFromEnv .background = .ok client ∧
        client.GetTargetsByMeta .Fulcio [fulcioTargetStr, fulcioV1TargetStr] = .ok targets ∧
        targets ≠ [] ∧
        (∀ c ∈ env.CertsOfPEM (bytesOf fulcioIntermediateV1), c ∈ intermediatePool) ∧
        (∀ c, c ∈ intermediatePool ↔
          (∃ t ∈ targets, ∃ certs, env.UnmarshalCertificatesFromPEM t.Target = .ok certs ∧
            c ∈ certs ∧ c.RawSubject ≠ c.RawIssuer) ∨
          c ∈ env.CertsOfPEM (bytesOf fulcioIntermediateV1)) ∧
        (∀ c, c ∈ rootPool ↔
          ∃ t ∈ targets, ∃ certs, env.UnmarshalCertificatesFromPEM t.Target = .ok certs ∧
            c ∈ certs ∧ c.RawSubject = c.RawIssuer)) ∧
    (∀ client,
      env.NewFromEnv .background = .ok client →
      client.GetTargetsByMeta .Fulcio [fulcioTargetStr, fulcioV1TargetStr] = .ok [] →
      (initRoots env).res = .error (.new "none of the Fulcio roots have been found")) ∧
    (∀ client targets,
      env.NewFromEnv .background = .ok client →
      client.GetTargetsByMeta .Fulcio [fulcioTargetStr, fulcioV1TargetStr] = .ok targets →
      targets ≠ [] →
      (∀ t ∈ targets, ∃ certs, env.UnmarshalCertificatesFromPEM t.Target = .ok certs) →
      ∃ rootPool intermediatePool, (initRoots env).res = .ok (rootPool, intermediatePool)) := by
  refine ⟨?_, ?_, ?_⟩
  · intro rootPool intermediatePool hres
    cases hnew : env.NewFromEnv .background with
    | error e =>
      simp [initRoots, Run.andThen, Run.call, Run.wrapErr, hunset, hnew, Except.mapError] at hres
    | ok client =>
      cases htg : client.GetTargetsByMeta .Fulcio [fulcioTargetStr, fulcioV1TargetStr] with
      | error e =>
        simp [initRoots, Run.andThen, Run.call, Run.wrapErr, Run.newErr, Run.defer, hunset, hnew,
          htg, Except.mapError] at hres
      | ok targets =>
        rw [initRoots_remote_res hunset hnew htg] at hres
        cases targets with
        | nil => simp at hres
        | cons t ts =>
          cases hadd : (addTargets env (t :: ts) ([], [])).res with
          | error e => simp [hadd] at hres
          | ok pools =>
            simp only [hadd, List.length_cons, Nat.add_one_ne_zero, if_false, Except.ok.injEq,
              Prod.mk.injEq] at hres
            obtain ⟨hr, hi⟩ := hres
            obtain ⟨_, hmem⟩ := addTargets_ok env (t :: ts) ([], []) pools hadd
            refine ⟨client, t :: ts, rfl, htg, by simp, ?_, ?_, ?_⟩
            · intro c hc
              rw [← hi, CertPool.mem_AppendCertsFromPEM]
              exact Or.inr hc
            · intro c
              rw [← hi, CertPool.mem_AppendCertsFromPEM, (hmem c).2]
              simp
            · intro c
              rw [← hr, (hmem c).1]
              simp
  · intro client hnew htg
    rw [initRoots_remote_res hunset hnew htg]
    rfl
  · intro client targets hnew htg hne hall
    obtain ⟨q, hq⟩ := addTargets_succeeds env targets ([], []) hall
    have hlen : ¬ targets.length = 0 := fun h => hne (List.eq_nil_of_length_eq_zero h)
    exact ⟨q.1, CertPool.AppendCertsFromPEM env q.2 (bytesOf fulcioIntermediateV1), by
      rw [initRoots_remote_res hunset hnew htg]
      simp [hlen, hq]⟩

/-- C7 at the sample TUF worlds: one target that holds `A` and `B` gives the
root pool `[A]` and an intermediate pool with `B` and the decoded hardcoded
intermediate; no target gives the error. -/
theorem initRoots_remote_build_witness :
    (initRoots (Sample.rootTUF [⟨[9], .Active⟩])).res =
      .ok ([Sample.certA], [Sample.certB, Sample.certV1]) ∧
    Sample.certV1 ∈ [Sample.certB, Sample.certV1] ∧
    (initRoots (Sample.rootTUF [])).res =
      .error (.new "none of the Fulcio roots have been found") :=
  ⟨rfl,
   ((initRoots_remote_build (Sample.rootTUF [⟨[9], .Active⟩]) rfl).1
      [Sample.certA] [Sample.certB, Sample.certV1] rfl).elim
      (fun _ h => h.elim (fun _ h' => h'.2.2.2.1 Sample.certV1 (List.mem_singleton.mpr rfl))),
   (initRoots_remote_build (Sample.rootTUF []) rfl).2.1
      ⟨fun usage _ => if usage = .Fulcio then .ok [] else .error Sample.unavailable⟩ rfl rfl⟩

/-! ## The accessors `Get` and `GetIntermediates` -/

/-- One run of `initRoots` reads `SIGSTORE_ROOT_FILE` exactly once. -/
theorem initRoots_count (env : Env) : initRootsCount (initRoots env).trace = 1 := by
  unfold initRootsCount
  by_cases hroot : env.Getenv altRoot = ""
  · cases hnew : env.NewFromEnv .background with
    | error e =>
      simp [initRoots, Run.andThen, Run.call, Run.wrapErr, hroot, hnew, Except.mapError]
    | ok client =>
      cases htg : client.GetTargetsByMeta .Fulcio [fulcioTargetStr, fulcioV1TargetStr] with
      | error e =>
        simp [initRoots, Run.andThen, Run.call, Run.wrapErr, Run.newErr, Run.defer, hroot, hnew,
          htg, Except.mapError]
      | ok targets =>
        cases targets with
        | nil =>
          simp [initRoots, Run.andThen, Run.call, Run.wrapErr, Run.newErr, Run.defer, hroot,
            hnew, htg, Except.mapError, Run.fail]
        | cons t ts =>
          have hsilent := addTargets_silent env (t :: ts) ([], [])
          cases hadd : (addTargets env (t :: ts) ([], [])).res <;>
            simp [initRoots, Run.andThen, Run.call, Run.wrapErr, Run.newErr, Run.defer, hroot,
              hnew, htg, Except.mapError, hadd, hsilent.1, hsilent.2, Run.ret]
  · cases hread : env.ReadFile (env.Getenv altRoot) with
    | error e =>
      simp [initRoots, Run.andThen, Run.call, Run.wrapErr, hroot, hread, Except.mapError]
    | ok raw =>
      cases hparse : env.UnmarshalCertificatesFromPEM raw <;>
        simp [initRoots, Run.andThen, Run.call, Run.wrapErr, Run.lift, Run.ret, Run.fail, hroot,
          hread, hparse, Except.mapError]

/-- Once `rootsOnce` is done, no accessor call does anything but return the
stored pointer. -/
theorem runCalls_done (g : Globals) (hdone : g.rootsOnce = true) (calls : List (Call × Env)) :
    runCalls g calls =
      ([], calls.map (fun ce => Ended.returned
        (match ce.1 with
          | .get => g.roots
          | .getIntermediates => g.intermediates))) := by
  induction calls with
  | nil => rfl
  | cons ce rest ih =>
    obtain ⟨c, env⟩ := ce
    cases c <;>
      simp [runCalls, Call.run, Get, GetIntermediates, rootsOnceDo, hdone, ih]

/-- C8, as the code has it: the trust-root build runs at most once per
process. In every sequence of calls of `Get` and `GetIntermediates`, in any
order, `initRoots` runs at most once, in the first call. When that build
succeeds every call returns the pool of that one build. When it fails, the
first call panics with the error of the build, the build is not run again,
and every later call returns a nil pool and no error: the failure is not
replayed. -/
theorem Get_builds_once (calls : List (Call × Env)) :
    initRootsCount (runCalls Globals.start calls).1 ≤ 1 ∧
    ∀ c0 env0 rest, calls = (c0, env0) :: rest →
      (runCalls Globals.start calls).1 = (initRoots env0).trace ∧
      initRootsCount (runCalls Globals.start calls).1 = 1 ∧
      (∀ rootPool intermediatePool,
        (initRoots env0).res = .ok (rootPool, intermediatePool) →
        (runCalls Globals.start calls).2 =
          calls.map (fun ce => Ended.returned
            (match ce.1 with
              | .get => some rootPool
              | .getIntermediates => some intermediatePool))) ∧
      (∀ err, (initRoots env0).res = .error err →
        (runCalls Globals.start calls).2 =
          Ended.panicked err :: rest.map (fun _ => Ended.returned none)) := by
  have hcons : ∀ c0 env0 rest, calls = (c0, env0) :: rest →
      (runCalls Globals.start calls).1 = (initRoots env0).trace ∧
      (∀ rootPool intermediatePool,
        (initRoots env0).res = .ok (rootPool, intermediatePool) →
        (runCalls Globals.start calls).2 =
          calls.map (fun ce => Ended.returned
            (match ce.1 with
              | .get => some rootPool
              | .getIntermediates => some intermediatePool))) ∧
      (∀ err, (initRoots env0).res = .error err →
        (runCalls Globals.start calls).2 =
          Ended.panicked err :: rest.map (fun _ => Ended.returned none)) := by
    intro c0 env0 rest hcalls
    subst hcalls
    cases hres : (initRoots env0).res with
    | error e =>
      have hrun : runCalls Globals.start ((c0, env0) :: rest) =
          ((initRoots env0).trace, Ended.panicked e :: rest.map (fun _ => Ended.returned none)) := by
        cases c0 <;>
          simp [runCalls, Call.run, Get, GetIntermediates, rootsOnceDo, Globals.start, hres,
            runCalls_done ⟨true, none, none⟩ rfl rest] <;>
          · rw [← List.map_const']
            apply List.map_congr_left
            intro a _
            split <;> rfl
      rw [hrun]
      refine ⟨rfl, ?_, ?_⟩
      · intro r i h
        cases h
      · intro err h
        cases h
        rfl
    | ok pools =>
      have hrun : runCalls Globals.start ((c0, env0) :: rest) =
          ((initRoots env0).trace, ((c0, env0) :: rest).map (fun ce => Ended.returned
            (match ce.1 with
              | .get => some pools.1
              | .getIntermediates => some pools.2))) := by
        cases c0 <;>
          simp [runCalls, Call.run, Get, GetIntermediates, rootsOnceDo, Globals.start, hres,
            runCalls_done ⟨true, some pools.1, some pools.2⟩ rfl rest]
      rw [hrun]
      refine ⟨rfl, ?_, ?_⟩
      · intro r i h
        cases h
        rfl
      · intro err h
        cases h
  constructor
  · cases calls with
    | nil => simp [runCalls, initRootsCount]
    | cons ce rest =>
      obtain ⟨c0, env0⟩ := ce
      rw [(hcons c0 env0 rest rfl).1, initRoots_count]
  · intro c0 env0 rest hcalls
    obtain ⟨htrace, hok, herr⟩ := hcons c0 env0 rest hcalls
    exact ⟨htrace, by rw [htrace, initRoots_count], hok, herr⟩

/-- C8 at the sample worlds: after a build from the root file every call
returns the pools `[A]` and `[B]` of that build, whatever the world has
become; after a failed build the first call panics and the next returns nil. -/
theorem Get_builds_once_witness :
    (runCalls Globals.start
      [(.get, Sample.rootFile), (.getIntermediates, Sample.nothing), (.get, Sample.nothing)]).2 =
      [.returned (some [Sample.certA]), .returned (some [Sample.certB]),
        .returned (some [Sample.certA])] ∧
    initRootsCount (runCalls Globals.start
      [(.get, Sample.rootFile), (.getIntermediates, Sample.nothing), (.get, Sample.nothing)]).1
      = 1 ∧
    (runCalls Globals.start [(.get, Sample.nothing), (.getIntermediates, Sample.rootFile)]).2 =
      [.panicked (.wrap Sample.unavailable "initializing tuf"), .returned none] :=
  ⟨((Get_builds_once
      [(.get, Sample.rootFile), (.getIntermediates, Sample.nothing), (.get, Sample.nothing)]).2
      .get Sample.rootFile [(.getIntermediates, Sample.nothing), (.get, Sample.nothing)]
      rfl).2.2.1 [Sample.certA] [Sample.certB] rfl,
   ((Get_builds_once
      [(.get, Sample.rootFile), (.getIntermediates, Sample.nothing), (.get, Sample.nothing)]).2
      .get Sample.rootFile [(.getIntermediates, Sample.nothing), (.get, Sample.nothing)]
      rfl).2.1,
   ((Get_builds_once [(.get, Sample.nothing), (.getIntermediates, Sample.rootFile)]).2
      .get Sample.nothing [(.getIntermediates, Sample.rootFile)]
      rfl).2.2.2 (.wrap Sample.unavailable "initializing tuf") rfl⟩

/-- C8 as stated fails: in a world where the TUF client cannot be made the
build fails; the first `Get` panics with the error of the build, and the
second `Get` does not run the build again and returns a nil pool, with no
panic and no error. -/
theorem Get_failure_not_replayed :
    (initRoots Sample.nothing).res = .error (.wrap Sample.unavailable "initializing tuf") ∧
    (runCalls Globals.start [(.get, Sample.nothing), (.get, Sample.nothing)]).2 =
      [.panicked (.wrap Sample.unavailable "initializing tuf"), .returned none] ∧
    initRootsCount
      (runCalls Globals.start [(.get, Sample.nothing), (.get, Sample.nothing)]).1 = 1 ∧
    Ended.returned none ≠ Ended.panicked (.wrap Sample.unavailable "initializing tuf") :=
  ⟨rfl, rfl, rfl, by decide⟩

/-! ## The alternate public key and the embedded entry point -/

/-- C9: `getAlternatePublicKey` is a first-success-wins fallback chain. Its
result is that of the chain in the words of the spec: on the payload of the
first PEM block when there is one, and on the input itself otherwise, the
PKIX decoding when that succeeds, otherwise the PKCS1 RSA decoding when that
succeeds, otherwise a parse error. It fails iff both decoders reject those
bytes; a PEM-wrapped PKIX key, a raw DER PKIX key and a raw DER PKCS1 RSA key
parse, and bytes that neither decoder accepts fail. -/
theorem getAlternatePublicKey_fallback (env : Env) (input : Bytes) :
    (getAlternatePublicKey env input).res = specAlternatePublicKey env input ∧
    ((∃ e, (getAlternatePublicKey env input).res = .error e) ↔
      ∃ e1 e2, env.ParsePKIXPublicKey (specDER env input) = .error e1 ∧
        env.ParsePKCS1PublicKey (specDER env input) = .error e2) ∧
    (∀ pemBlock key, env.pemDecode input = some pemBlock →
      env.ParsePKIXPublicKey pemBlock.Bytes = .ok key →
      (getAlternatePublicKey env input).res = .ok key) ∧
    (∀ key, env.pemDecode input = none →
      env.ParsePKIXPublicKey input = .ok key →
      (getAlternatePublicKey env input).res = .ok key) ∧
    (∀ e rsaKey, env.pemDecode input = none →
      env.ParsePKIXPublicKey input = .error e →
      env.ParsePKCS1PublicKey input = .ok rsaKey →
      (getAlternatePublicKey env input).res = .ok (.rsa rsaKey)) ∧
    (∀ e1 e2, env.ParsePKIXPublicKey (specDER env input) = .error e1 →
      env.ParsePKCS1PublicKey (specDER env input) = .error e2 →
      (getAlternatePublicKey env input).res =
        .error (.wrap e2 "failed to parse alternate public key")) := by
  have hspec : (getAlternatePublicKey env input).res = specAlternatePublicKey env input := by
    unfold getAlternatePublicKey specAlternatePublicKey specDER
    cases hd : env.pemDecode input with
    | none =>
      cases hx : env.ParsePKIXPublicKey input with
      | ok k => simp [Run.andThen, Run.emit, Run.ret, hx]
      | error e =>
        cases hr : env.ParsePKCS1PublicKey input <;>
          simp [Run.andThen, Run.emit, Run.ret, Run.fail, hx, hr]
    | some blk =>
      cases hx : env.ParsePKIXPublicKey blk.Bytes with
      | ok k => simp [Run.andThen, Run.ret, hx]
      | error e =>
        cases hr : env.ParsePKCS1PublicKey blk.Bytes <;>
          simp [Run.andThen, Run.ret, Run.fail, hx, hr]
  refine ⟨hspec, ?_, ?_, ?_, ?_, ?_⟩
  · rw [hspec]
    unfold specAlternatePublicKey
    cases hx : env.ParsePKIXPublicKey (specDER env input) with
    | ok k => simp
    | error e1 =>
      cases hr : env.ParsePKCS1PublicKey (specDER env input) with
      | ok r => simp
      | error e2 => simp
  · intro pemBlock key hd hx
    rw [hspec]
    simp [specAlternatePublicKey, specDER, hd, hx]
  · intro key hd hx
    rw [hspec]
    simp [specAlternatePublicKey, specDER, hd, hx]
  · intro e rsaKey hd hx hr
    rw [hspec]
    simp [specAlternatePublicKey, specDER, hd, hx, hr]
  · intro e1 e2 hx hr
    rw [hspec]
    simp [specAlternatePublicKey, hx, hr]

/-- C9 at the sample key file: the PEM-wrapped key, the same key as raw DER
and the raw PKCS1 RSA key parse, and the bytes `[0]` do not. -/
theorem getAlternatePublicKey_fallback_witness :
    (getAlternatePublicKey (Sample.keyFile []) [45, 4, 1, 2]).res = .ok Sample.logKey ∧
    (getAlternatePublicKey (Sample.keyFile []) [4, 1, 2]).res = .ok Sample.logKey ∧
    (getAlternatePublicKey (Sample.keyFile []) [5, 5]).res = .ok (.rsa [5, 5]) ∧
    (getAlternatePublicKey (Sample.keyFile []) [0]).res =
      .error (.wrap Sample.unavailable "failed to parse alternate public key") :=
  ⟨(getAlternatePublicKey_fallback (Sample.keyFile []) [45, 4, 1, 2]).2.2.1
      ⟨"PUBLIC KEY", [4, 1, 2]⟩ Sample.logKey rfl rfl,
   (getAlternatePublicKey_fallback (Sample.keyFile []) [4, 1, 2]).2.2.2.1 Sample.logKey rfl rfl,
   (getAlternatePublicKey_fallback (Sample.keyFile []) [5, 5]).2.2.2.2.1
      Sample.unavailable [5, 5] rfl rfl rfl,
   (getAlternatePublicKey_fallback (Sample.keyFile []) [0]).2.2.2.2.2
      Sample.unavailable Sample.unavailable rfl rfl⟩

/-- C10: `VerifyEmbeddedSCT` needs a chain of at least two certificates.
On a chain of length 0 or 1 it fails with the error "certificate chain must
contain at least a certificate and its issuer" and makes no call at all (no
environment read, no TUF client, no signature check); on a chain of length
at least 2 whose certificates marshal to PEM it is `VerifySCT` on the PEM of
chain[0], the PEM of chain[1:] and the empty detached payload. -/
theorem VerifyEmbeddedSCT_chain (env : Env) (ctx : Context) (chain : List Certificate) :
    (chain.length < 2 →
      VerifyEmbeddedSCT env ctx chain =
        ⟨[], [], .error
          (.new "certificate chain must contain at least a certificate and its issuer")⟩) ∧
    (∀ leaf certPEM chainPEM, 2 ≤ chain.length → chain.head? = some leaf →
      env.MarshalCertificateToPEM leaf = .ok certPEM →
      env.MarshalCertificatesToPEM (chain.drop 1) = .ok chainPEM →
      VerifyEmbeddedSCT env ctx chain = VerifySCT env ctx certPEM chainPEM []) := by
  constructor
  · intro hlen
    simp [VerifyEmbeddedSCT, hlen, Run.func, Run.fail]
  · intro leaf certPEM chainPEM hlen hhead hm1 hm2
    have hnot : ¬ chain.length < 2 := by omega
    cases chain with
    | nil => simp at hlen
    | cons c rest =>
      simp only [List.head?_cons, Option.some.injEq] at hhead
      subst hhead
      simp only [List.drop_succ_cons, List.drop_zero] at hm2
      simp only [VerifyEmbeddedSCT, hnot, dite_false, List.getElem_cons_zero, Run.bind_eq, hm1,
        Run.andThen_lift_ok, List.drop_succ_cons, List.drop_zero, hm2]
      simp [VerifySCT, Run.func]

/-- C10 at the sample key file: the chain `[leaf]` is refused without any
call, and the chain `[leaf, issuer]` is verified as `VerifySCT` does. -/
theorem VerifyEmbeddedSCT_chain_witness :
    VerifyEmbeddedSCT (Sample.keyFile [Sample.sct 1 [7]]) .background [Sample.leaf] =
      ⟨[], [], .error
        (.new "certificate chain must contain at least a certificate and its issuer")⟩ ∧
    VerifyEmbeddedSCT (Sample.keyFile [Sample.sct 1 [7]]) .background
        [Sample.leaf, Sample.issuer] =
      VerifySCT (Sample.keyFile [Sample.sct 1 [7]]) .background [1] [2] [] :=
  ⟨(VerifyEmbeddedSCT_chain (Sample.keyFile [Sample.sct 1 [7]]) .background [Sample.leaf]).1
      (by decide),
   (VerifyEmbeddedSCT_chain (Sample.keyFile [Sample.sct 1 [7]]) .background
      [Sample.leaf, Sample.issuer]).2 Sample.leaf [1] [2] (by decide) rfl rfl rfl⟩

end Fulcio
